import Mathlib

/-!
# go-mastodon: the API client of `mastodon.go`

A shallow embedding of `mastodon.go` (Config, Client, doAPI, NewClient,
Authenticate) together with the parts of the Go standard library it calls
(`net/url` form encoding, `net/http` request construction, `encoding/json`
decoding), followed by the event-stream subsystem.

Go strings are byte sequences; a Go `error` is represented by its message and
the nil error by `none`.  Pointer targets (`*Config`, the `res` argument) are
passed in and returned explicitly.
-/

set_option maxRecDepth 100000
set_option maxHeartbeats 4000000

namespace Mastodon

/-! ## Strings and errors -/

/-- One byte of a Go string. -/
abbrev Byte := Fin 256

/-- Go `string`: an immutable sequence of bytes. -/
abbrev GoString := List Byte

/-- UTF-8 encoding of one character, as Go source literals are stored. -/
def utf8 (c : Char) : GoString :=
  (String.utf8EncodeChar c).map (fun b => b.val)

/-- Go string literal. -/
def str (s : String) : GoString :=
  s.toList.flatMap utf8

/-- Go `error`, represented by the text of `Error()`. -/
abbrev Error := GoString

/-- Equality of results is decidable when it is for values and errors. -/
instance instDecidableEqExcept {ε α : Type} [DecidableEq ε] [DecidableEq α] :
    DecidableEq (Except ε α)
  | .ok a, .ok b => if h : a = b then isTrue (by rw [h]) else isFalse (fun h2 => h (Except.ok.inj h2))
  | .error a, .error b =>
    if h : a = b then isTrue (by rw [h]) else isFalse (fun h2 => h (Except.error.inj h2))
  | .ok _, .error _ => isFalse (fun h => Except.noConfusion h)
  | .error _, .ok _ => isFalse (fun h => Except.noConfusion h)

/-- Function `strings.HasPrefix` as a split: the rest of `s` after `p`, when `s`
starts with `p`. -/
def dropStart : GoString → GoString → Option GoString
  | [], s => some s
  | _ :: _, [] => none
  | p :: ps, c :: cs => if p = c then dropStart ps cs else none

/-! ## net/url: query escaping and form values -/

/-- Function `ishex` of net/url. -/
def ishex (c : Byte) : Bool :=
  (48 ≤ c.val && c.val ≤ 57) || (97 ≤ c.val && c.val ≤ 102) || (65 ≤ c.val && c.val ≤ 70)

/-- Function `unhex` of net/url. -/
def unhex (c : Byte) : Nat :=
  if 48 ≤ c.val ∧ c.val ≤ 57 then c.val - 48
  else if 97 ≤ c.val ∧ c.val ≤ 102 then c.val - 97 + 10
  else if 65 ≤ c.val ∧ c.val ≤ 70 then c.val - 65 + 10
  else 0

/-- The digit table `upperhex = "0123456789ABCDEF"` of net/url, indexed. -/
def upperhex (n : Nat) : Byte :=
  if n < 10 then Fin.ofNat (48 + n) else Fin.ofNat (55 + n)

/-- ASCII letters and digits. -/
def isAlnum (c : Byte) : Bool :=
  (97 ≤ c.val && c.val ≤ 122) || (65 ≤ c.val && c.val ≤ 90) || (48 ≤ c.val && c.val ≤ 57)

/-- Function `shouldEscape(c, encodeQueryComponent)` of net/url: everything but
letters, digits and `-` `_` `.` `~` is escaped in a query component. -/
def shouldEscape (c : Byte) : Bool :=
  !(isAlnum c || c.val = 45 || c.val = 95 || c.val = 46 || c.val = 126)

/-- Function `url.QueryEscape`: a space becomes `+`, an escaped byte becomes
`%XX` in upper-case hexadecimal, every other byte is copied. -/
def QueryEscape : GoString → GoString
  | [] => []
  | c :: rest =>
    if c.val = 32 then (43 : Byte) :: QueryEscape rest
    else if shouldEscape c then
      (37 : Byte) :: upperhex (c.val / 16) :: upperhex (c.val % 16) :: QueryEscape rest
    else c :: QueryEscape rest

/-- Error value `url.EscapeError` for a malformed `%` sequence. -/
def EscapeError (s : GoString) : Error :=
  str "invalid URL escape " ++ s

/-- Function `url.QueryUnescape`: `%XX` becomes the byte, `+` becomes a space; a
`%` not followed by two hexadecimal digits is an `EscapeError` carrying at most
three bytes of the offending text. -/
def QueryUnescape : GoString → Except Error GoString
  | [] => .ok []
  | c :: rest =>
    if c.val = 37 then
      match rest with
      | h :: l :: rest2 =>
        if ishex h && ishex l then
          match QueryUnescape rest2 with
          | .ok out => .ok (Fin.ofNat (16 * unhex h + unhex l) :: out)
          | .error e => .error e
        else .error (EscapeError [c, h, l])
      | _ => .error (EscapeError (c :: rest))
    else if c.val = 43 then
      match QueryUnescape rest with
      | .ok out => .ok ((32 : Byte) :: out)
      | .error e => .error e
    else
      match QueryUnescape rest with
      | .ok out => .ok (c :: out)
      | .error e => .error e

/-- Type `url.Values` (`map[string][]string`), kept as an association list in
increasing key order, the order in which `Encode` visits the keys. -/
abbrev Values := List (GoString × List GoString)

/-- Method `Values.Set`: the key is bound to the single value. -/
def Values.Set : Values → GoString → GoString → Values
  | [], key, value => [(key, [value])]
  | (k, vs) :: rest, key, value =>
    if key = k then (k, [value]) :: rest
    else if key < k then (key, [value]) :: (k, vs) :: rest
    else (k, vs) :: Values.Set rest key value

/-- Method `Values.Add`, also `m[key] = append(m[key], value)`. -/
def Values.Add : Values → GoString → GoString → Values
  | [], key, value => [(key, [value])]
  | (k, vs) :: rest, key, value =>
    if key = k then (k, vs ++ [value]) :: rest
    else if key < k then (key, [value]) :: (k, vs) :: rest
    else (k, vs) :: Values.Add rest key value

/-- The map lookup `v[key]`: the values of the key, none when it is absent. -/
def Values.lookup : Values → GoString → List GoString
  | [], _ => []
  | (k, vs) :: rest, key => if key = k then vs else Values.lookup rest key

/-- Method `Values.Get`: the first value of the key, or the empty string. -/
def Values.Get (v : Values) (key : GoString) : GoString :=
  (Values.lookup v key).headD []

/-- Joins the pieces with `&` (the `buf.Len() > 0` test of `Encode`). -/
def joinAmp : List GoString → GoString
  | [] => []
  | [p] => p
  | p :: q :: rest => p ++ (38 : Byte) :: joinAmp (q :: rest)

/-- Method `Values.Encode`: `key=value` pairs, both escaped, in key order,
joined by `&`. -/
def Values.Encode (v : Values) : GoString :=
  joinAmp (v.flatMap (fun kv => kv.2.map (fun x => QueryEscape kv.1 ++ (61 : Byte) :: QueryEscape x)))

/-- Function `strings.Cut(s, sep)` for a one-byte separator `sep`, with the
text before the first separator accumulated in `cur`. -/
def cutAt (sep : Byte) : GoString → GoString → GoString × Option GoString
  | cur, [] => (cur, none)
  | cur, c :: rest => if c = sep then (cur, some rest) else cutAt sep (cur ++ [c]) rest

/-- One iteration body of `parseQuery` on the piece `key` between two `&`. -/
def parsePair (m : Values) (err : Option Error) (key : GoString) : Values × Option Error :=
  if (59 : Byte) ∈ key then (m, some (str "invalid semicolon separator in query"))
  else if key = [] then (m, err)
  else
    let kv := cutAt 61 [] key
    match QueryUnescape kv.1 with
    | .error e1 => (m, if err = none then some e1 else err)
    | .ok k =>
      match QueryUnescape (kv.2.getD []) with
      | .error e1 => (m, if err = none then some e1 else err)
      | .ok v => (Values.Add m k v, err)

/-- The loop of `parseQuery`: the query is cut at each `&`; `cur` is the piece
read so far. -/
def parseQueryLoop (m : Values) (err : Option Error) : GoString → GoString → Values × Option Error
  | cur, [] => parsePair m err cur
  | cur, c :: rest =>
    if c.val = 38 then
      let r := parsePair m err cur
      parseQueryLoop r.1 r.2 [] rest
    else parseQueryLoop m err (cur ++ [c]) rest

/-- Function `url.ParseQuery`: always returns the values it could parse, with the
first error met (Go 1.17 and later: a `;` in a piece is an error). -/
def ParseQuery (query : GoString) : Values × Option Error :=
  parseQueryLoop [] none [] query

/-! ## encoding/json: reading one value and storing it -/

/-- A JSON value as the decoder reads it; a number keeps its literal text. -/
inductive JSON where
  | null
  | bool (b : Bool)
  | number (lit : GoString)
  | string (s : GoString)
  | array (elems : List JSON)
  | object (members : List (GoString × JSON))

/-- Error `io.EOF`: the body holds no value at all. -/
def errEOF : Error := str "EOF"

/-- Error `io.ErrUnexpectedEOF`: the body ends inside a value. -/
def errUnexpectedEOF : Error := str "unexpected EOF"

/-- Error `*json.SyntaxError`. -/
def errSyntax : Error := str "invalid character"

/-- Error `*json.UnmarshalTypeError`. -/
def errType : Error := str "json: cannot unmarshal value into Go value"

/-- Function `isSpace` of the JSON scanner. -/
def isSpace (c : Byte) : Bool :=
  c.val = 32 || c.val = 9 || c.val = 13 || c.val = 10

/-- Leading white space is skipped between tokens. -/
def skipSpace : GoString → GoString
  | [] => []
  | c :: rest => if isSpace c then skipSpace rest else c :: rest

/-- Decimal digit. -/
def isDigit (c : Byte) : Bool :=
  48 ≤ c.val && c.val ≤ 57

/-- The longest run of digits at the head of the input and what follows it. -/
def spanDigits : GoString → GoString × GoString
  | [] => ([], [])
  | c :: rest =>
    if isDigit c then ((spanDigits rest).1.cons c, (spanDigits rest).2) else ([], c :: rest)

/-- Function `utf8.EncodeRune` for a code point below `0x110000`. -/
def encodeRune (r : Nat) : GoString :=
  if r < 128 then [Fin.ofNat r]
  else if r < 2048 then [Fin.ofNat (192 + r / 64), Fin.ofNat (128 + r % 64)]
  else if r < 65536 then
    [Fin.ofNat (224 + r / 4096), Fin.ofNat (128 + r / 64 % 64), Fin.ofNat (128 + r % 64)]
  else
    [Fin.ofNat (240 + r / 262144), Fin.ofNat (128 + r / 4096 % 64),
      Fin.ofNat (128 + r / 64 % 64), Fin.ofNat (128 + r % 64)]

/-- Function `getu4`: the value of `\uXXXX` at the head of the input. -/
def getu4 : GoString → Option Nat
  | b :: u :: h1 :: h2 :: h3 :: h4 :: _ =>
    if b.val = 92 ∧ u.val = 117 ∧ ishex h1 ∧ ishex h2 ∧ ishex h3 ∧ ishex h4 then
      some (4096 * unhex h1 + 256 * unhex h2 + 16 * unhex h3 + unhex h4)
    else none
  | _ => none

/-- The rune a `\uXXXX` escape with value `rr` stands for, given the input after
it: a surrogate pair is combined (and six more bytes are used), a lone
surrogate becomes U+FFFD. -/
def escapedRune (rr : Nat) (after : GoString) : Nat × Bool :=
  if 55296 ≤ rr ∧ rr < 57344 then
    match getu4 after with
    | some rr1 =>
      if rr < 56320 ∧ 56320 ≤ rr1 ∧ rr1 < 57344 then
        ((rr - 55296) * 1024 + (rr1 - 56320) + 65536, true)
      else (65533, false)
    | none => (65533, false)
  else (rr, false)

/-- Continuation byte of a UTF-8 sequence, `0x80` to `0xBF`. -/
def isCont (b : Byte) : Bool :=
  128 ≤ b.val && b.val ≤ 191

/-- Function `utf8.DecodeRune` at a first byte that is not ASCII: the number of
bytes of the well-formed sequence at the head of the input, by the tables
`first` and `acceptRanges` of unicode/utf8, or 0 when there is none (the rune
is then U+FFFD, one byte wide). -/
def runeLen : GoString → Nat
  | [] => 0
  | p0 :: rest =>
    if 194 ≤ p0.val ∧ p0.val ≤ 223 then
      match rest with
      | b1 :: _ => if isCont b1 then 2 else 0
      | [] => 0
    else if 224 ≤ p0.val ∧ p0.val ≤ 239 then
      match rest with
      | b1 :: b2 :: _ =>
        if (if p0.val = 224 then 160 else 128) ≤ b1.val ∧
            b1.val ≤ (if p0.val = 237 then 159 else 191) ∧ isCont b2 then 3
        else 0
      | _ => 0
    else if 240 ≤ p0.val ∧ p0.val ≤ 244 then
      match rest with
      | b1 :: b2 :: b3 :: _ =>
        if (if p0.val = 240 then 144 else 128) ≤ b1.val ∧
            b1.val ≤ (if p0.val = 244 then 143 else 191) ∧ isCont b2 ∧ isCont b3 then 4
        else 0
      | _ => 0
    else 0

/-- The bytes of U+FFFD, which stands for a byte that is not well-formed UTF-8. -/
def replacementBytes : GoString := [239, 191, 189]

/-- The body of a string literal after its opening quote: the decoded bytes and
the input after the closing quote.  Escapes are decoded, a well-formed UTF-8
sequence is copied, and a byte that starts none is stored as U+FFFD.  The
first argument counts the bytes of a well-formed sequence still to be copied. -/
def parseString : Nat → GoString → GoString → Except Error (GoString × GoString)
  | _, _, [] => .error errUnexpectedEOF
  | pending + 1, acc, c :: rest => parseString pending (acc ++ [c]) rest
  | 0, acc, c :: rest =>
    if c.val = 34 then .ok (acc, rest)
    else if c.val < 32 then .error errSyntax
    else if c.val = 92 then
      match rest with
      | [] => .error errUnexpectedEOF
      | e :: rest2 =>
        if e.val = 34 ∨ e.val = 92 ∨ e.val = 47 then parseString 0 (acc ++ [e]) rest2
        else if e.val = 98 then parseString 0 (acc ++ [8]) rest2
        else if e.val = 102 then parseString 0 (acc ++ [12]) rest2
        else if e.val = 110 then parseString 0 (acc ++ [10]) rest2
        else if e.val = 114 then parseString 0 (acc ++ [13]) rest2
        else if e.val = 116 then parseString 0 (acc ++ [9]) rest2
        else if e.val = 117 then
          match rest2 with
          | h1 :: h2 :: h3 :: h4 :: rest3 =>
            match getu4 (c :: e :: h1 :: h2 :: h3 :: h4 :: []) with
            | none => .error errSyntax
            | some rr =>
              match rest3 with
              | b1 :: b2 :: b3 :: b4 :: b5 :: b6 :: rest4 =>
                if (escapedRune rr rest3).2 then
                  parseString 0 (acc ++ encodeRune (escapedRune rr rest3).1) rest4
                else
                  parseString 0 (acc ++ encodeRune (escapedRune rr rest3).1)
                    (b1 :: b2 :: b3 :: b4 :: b5 :: b6 :: rest4)
              | short => parseString 0 (acc ++ encodeRune (escapedRune rr short).1) short
          | _ => .error errUnexpectedEOF
        else .error errSyntax
    else if c.val < 128 then parseString 0 (acc ++ [c]) rest
    else if runeLen (c :: rest) = 0 then parseString 0 (acc ++ replacementBytes) rest
    else parseString (runeLen (c :: rest) - 1) (acc ++ [c]) rest

/-- Integer part of a number literal: `0`, or a non-zero digit followed by digits. -/
def numInt : GoString → Except Error (GoString × GoString)
  | [] => .error errUnexpectedEOF
  | c :: rest =>
    if c.val = 48 then .ok ([c], rest)
    else if isDigit c then .ok (c :: (spanDigits rest).1, (spanDigits rest).2)
    else .error errSyntax

/-- At least one digit, as required after `.`, `e` and the sign of an exponent. -/
def numDigits (s : GoString) : Except Error (GoString × GoString) :=
  match spanDigits s with
  | ([], []) => .error errUnexpectedEOF
  | ([], _ :: _) => .error errSyntax
  | (d :: ds, rest) => .ok (d :: ds, rest)

/-- Optional fraction `.digits`. -/
def numFrac : GoString → Except Error (GoString × GoString)
  | [] => .ok ([], [])
  | c :: rest =>
    if c.val = 46 then
      match numDigits rest with
      | .ok (ds, r) => .ok (c :: ds, r)
      | .error e => .error e
    else .ok ([], c :: rest)

/-- Optional exponent `e`/`E`, optional sign, digits. -/
def numExp : GoString → Except Error (GoString × GoString)
  | [] => .ok ([], [])
  | c :: rest =>
    if c.val = 101 ∨ c.val = 69 then
      match rest with
      | [] => .error errUnexpectedEOF
      | sgn :: rest2 =>
        if sgn.val = 43 ∨ sgn.val = 45 then
          match numDigits rest2 with
          | .ok (ds, r) => .ok (c :: sgn :: ds, r)
          | .error e => .error e
        else
          match numDigits (sgn :: rest2) with
          | .ok (ds, r) => .ok (c :: ds, r)
          | .error e => .error e
    else .ok ([], c :: rest)

/-- Number literal after its optional minus sign. -/
def numUnsigned (s : GoString) : Except Error (GoString × GoString) :=
  match numInt s with
  | .error e => .error e
  | .ok (i, r1) =>
    match numFrac r1 with
    | .error e => .error e
    | .ok (f, r2) =>
      match numExp r2 with
      | .error e => .error e
      | .ok (x, r3) => .ok (i ++ f ++ x, r3)

/-- A number literal at the head of the input: its text and what follows. -/
def parseNumber : GoString → Except Error (GoString × GoString)
  | [] => .error errUnexpectedEOF
  | c :: rest =>
    if c.val = 45 then
      match numUnsigned rest with
      | .ok (lit, r) => .ok (c :: lit, r)
      | .error e => .error e
    else numUnsigned (c :: rest)

/-- One of the literals `true`, `false`, `null`. -/
def parseLiteral (word : GoString) (v : JSON) (s : GoString) : Except Error (JSON × GoString) :=
  match dropStart word s with
  | some rest => .ok (v, rest)
  | none => if s.length < word.length then .error errUnexpectedEOF else .error errSyntax

/-- Constant `maxNestingDepth` of the JSON scanner. -/
def maxNestingDepth : Nat := 10000

/-- The scanner's error for an object or array nested deeper than
`maxNestingDepth`. -/
def errDepth : Error := str "exceeded max depth"

mutual
/-- One JSON value at the head of the input, after white space, and the input
that follows it.  The first argument bounds the number of nested calls, the
second is the number of objects and arrays that are open: opening one more
than `maxNestingDepth` is an error. -/
def parseValue : Nat → Nat → GoString → Except Error (JSON × GoString)
  | 0, _, _ => .error errSyntax
  | fuel + 1, depth, s =>
    match skipSpace s with
    | [] => .error errUnexpectedEOF
    | c :: rest =>
      if c.val = 123 then
        if maxNestingDepth ≤ depth then .error errDepth
        else
          match skipSpace rest with
          | [] => .error errUnexpectedEOF
          | d :: rest2 =>
            if d.val = 125 then .ok (JSON.object [], rest2)
            else parseMembers fuel (depth + 1) [] (d :: rest2)
      else if c.val = 91 then
        if maxNestingDepth ≤ depth then .error errDepth
        else
          match skipSpace rest with
          | [] => .error errUnexpectedEOF
          | d :: rest2 =>
            if d.val = 93 then .ok (JSON.array [], rest2)
            else parseElems fuel (depth + 1) [] (d :: rest2)
      else if c.val = 34 then
        match parseString 0 [] rest with
        | .ok (v, r) => .ok (JSON.string v, r)
        | .error e => .error e
      else if c.val = 116 then parseLiteral (str "true") (JSON.bool true) (c :: rest)
      else if c.val = 102 then parseLiteral (str "false") (JSON.bool false) (c :: rest)
      else if c.val = 110 then parseLiteral (str "null") JSON.null (c :: rest)
      else
        match parseNumber (c :: rest) with
        | .ok (lit, r) => .ok (JSON.number lit, r)
        | .error e => .error e
/-- The elements of an array after `[`, up to and including `]`. -/
def parseElems : Nat → Nat → List JSON → GoString → Except Error (JSON × GoString)
  | 0, _, _, _ => .error errSyntax
  | fuel + 1, depth, acc, s =>
    match parseValue fuel depth s with
    | .error e => .error e
    | .ok (v, rest) =>
      match skipSpace rest with
      | [] => .error errUnexpectedEOF
      | c :: rest2 =>
        if c.val = 44 then parseElems fuel depth (acc ++ [v]) rest2
        else if c.val = 93 then .ok (JSON.array (acc ++ [v]), rest2)
        else .error errSyntax
/-- The members of an object after `{`, up to and including `}`. -/
def parseMembers :
    Nat → Nat → List (GoString × JSON) → GoString → Except Error (JSON × GoString)
  | 0, _, _, _ => .error errSyntax
  | fuel + 1, depth, acc, s =>
    match skipSpace s with
    | [] => .error errUnexpectedEOF
    | q :: afterQuote =>
      if q.val = 34 then
        match parseString 0 [] afterQuote with
        | .error e => .error e
        | .ok (key, r1) =>
          match skipSpace r1 with
          | [] => .error errUnexpectedEOF
          | colon :: r2 =>
            if colon.val = 58 then
              match parseValue fuel depth r2 with
              | .error e => .error e
              | .ok (v, r3) =>
                match skipSpace r3 with
                | [] => .error errUnexpectedEOF
                | c :: r4 =>
                  if c.val = 44 then parseMembers fuel depth (acc ++ [(key, v)]) r4
                  else if c.val = 125 then .ok (JSON.object (acc ++ [(key, v)]), r4)
                  else .error errSyntax
            else .error errSyntax
      else .error errSyntax
end

/-- What `Decoder.Decode` reads from a body: the first JSON value, whatever
follows it; `io.EOF` when the body holds only white space.  Every nested call
of the reader uses up at least one byte within two calls, so twice the length
of the body bounds the number of calls. -/
def readValue (body : GoString) : Except Error JSON :=
  match skipSpace body with
  | [] => .error errEOF
  | c :: rest =>
    match parseValue (2 * body.length + 2) 0 (c :: rest) with
    | .ok (v, _) => .ok v
    | .error e => .error e

/-- Method `(*json.Decoder).Decode` on a fresh decoder over `body`: the value is
read, then stored into the target by the target type's `unmarshal`, which
returns the target as it leaves it and the error, if any. -/
def Decode {τ : Type} (unmarshal : JSON → τ → τ × Option Error) (body : GoString) (target : τ) :
    τ × Option Error :=
  match readValue body with
  | .error e => (target, some e)
  | .ok v => unmarshal v target

/-- Upper-case folding of a member name, Go `foldName`: ASCII letters are folded,
and the two non-ASCII runes that fold to an ASCII letter, U+212A (Kelvin sign)
and U+017F (long s), become `K` and `S`. -/
def foldName : GoString → GoString
  | [] => []
  | c :: rest =>
    if 97 ≤ c.val ∧ c.val ≤ 122 then Fin.ofNat (c.val - 32) :: foldName rest
    else
      match rest with
      | [] => [c]
      | d :: rest2 =>
        if c.val = 197 ∧ d.val = 191 then (83 : Byte) :: foldName rest2
        else
          match rest2 with
          | [] => c :: foldName (d :: [])
          | e :: rest3 =>
            if c.val = 226 ∧ d.val = 132 ∧ e.val = 170 then (75 : Byte) :: foldName rest3
            else c :: foldName (d :: e :: rest3)

/-- A member named `key` is stored into the struct field with JSON name `name`
when the names are equal or equal after folding. -/
def fieldMatches (name key : GoString) : Bool :=
  key = name || foldName key = foldName name

/-- Storing a JSON value into a Go `string` field: a string is stored, `null`
leaves the field as it is, anything else is an `UnmarshalTypeError`. -/
def storeString (v : JSON) (old : GoString) : GoString × Option Error :=
  match v with
  | JSON.string s => (s, none)
  | JSON.null => (old, none)
  | _ => (old, some errType)

/-! ## net/http: requests and responses -/

/-- Function `httpguts.IsTokenRune` on a byte: letters, digits and
``!#$%&'*+-.^_`|~``. -/
def isToken (c : Byte) : Bool :=
  isAlnum c || c.val = 33 || c.val = 35 || c.val = 36 || c.val = 37 || c.val = 38 ||
    c.val = 39 || c.val = 42 || c.val = 43 || c.val = 45 || c.val = 46 || c.val = 94 ||
    c.val = 95 || c.val = 96 || c.val = 124 || c.val = 126

/-- Function `validMethod` of net/http: a non-empty token. -/
def validMethod (method : GoString) : Bool :=
  method ≠ [] && method.all isToken

/-- The second loop of `textproto.canonicalMIMEHeaderKey`: upper case at the
start and after each `-`, lower case elsewhere. -/
def canonLoop : Bool → GoString → GoString
  | _, [] => []
  | upper, c :: rest =>
    if upper ∧ 97 ≤ c.val ∧ c.val ≤ 122 then Fin.ofNat (c.val - 32) :: canonLoop false rest
    else if ¬ upper ∧ 65 ≤ c.val ∧ c.val ≤ 90 then Fin.ofNat (c.val + 32) :: canonLoop false rest
    else c :: canonLoop (c.val = 45) rest

/-- Function `textproto.CanonicalMIMEHeaderKey`: a key with a byte that is not a
token byte (a space included) is returned unchanged. -/
def CanonicalMIMEHeaderKey (key : GoString) : GoString :=
  if key.all isToken then canonLoop true key else key

/-- Type `http.Header` (`map[string][]string`) as an association list. -/
abbrev Header := List (GoString × List GoString)

/-- The map assignment `h[key] = values`. -/
def Header.assign : Header → GoString → List GoString → Header
  | [], key, values => [(key, values)]
  | (k, vs) :: rest, key, values =>
    if key = k then (k, values) :: rest else (k, vs) :: Header.assign rest key values

/-- Method `Header.Set`: the canonical key is bound to the single value. -/
def Header.Set (h : Header) (key value : GoString) : Header :=
  Header.assign h (CanonicalMIMEHeaderKey key) [value]

/-- The map lookup `h[key]`. -/
def Header.lookup : Header → GoString → List GoString
  | [], _ => []
  | (k, vs) :: rest, key => if key = k then vs else Header.lookup rest key

/-- Method `Header.Get`: the first value of the canonical key, or `""`. -/
def Header.Get (h : Header) (key : GoString) : GoString :=
  (Header.lookup h (CanonicalMIMEHeaderKey key)).headD []

/-- Type `url.URL`, with the fields this client touches. -/
structure URL where
  Scheme : GoString
  Host : GoString
  Path : GoString
  RawQuery : GoString
  Fragment : GoString
deriving DecidableEq

/-- The pure library functions the client calls and that are left uninterpreted:
`url.Parse`, `(*URL).String` and `path.Join` on two elements. -/
structure Stdlib where
  Parse : GoString → Except Error URL
  String : URL → GoString
  Join : GoString → GoString → GoString

/-- Type `http.Request`: what the server receives. -/
structure Request where
  Method : GoString
  URL : URL
  Header : Header
  Body : GoString
deriving DecidableEq

/-- Type `http.Response`, with the body as the bytes that can be read from it. -/
structure Response where
  StatusCode : Nat
  Status : GoString
  Body : GoString
deriving DecidableEq

/-- Constant `http.MethodGet`. -/
def MethodGet : GoString := str "GET"

/-- Constant `http.MethodPost`. -/
def MethodPost : GoString := str "POST"

/-- Constant `http.StatusOK`. -/
def StatusOK : Nat := 200

/-- Function `http.NewRequest(method, url, strings.NewReader(body))`: an empty
method means GET, a method that is not a token is refused, the URL is parsed.
The new request has an empty header and the body it was given. -/
def NewRequest (lib : Stdlib) (method url body : GoString) : Except Error Request :=
  let method := if method = [] then MethodGet else method
  if ¬ validMethod method then .error (str "net/http: invalid method " ++ method)
  else
    match lib.Parse url with
    | .error err => .error err
    | .ok u => .ok { Method := method, URL := u, Header := [], Body := body }

/-- Type `http.Client`: `Do` sends the request over the network and returns the
server's response or the transport error. -/
structure http.Client where
  Do : Request → Except Error Response

/-! ## mastodon.go -/

/-- Config is a setting for access mastodon APIs. -/
structure Config where
  Server : GoString
  ClientID : GoString
  ClientSecret : GoString
  AccessToken : GoString
deriving DecidableEq

/-- Client is a API client for mastodon: the embedded `http.Client` (field
`http`) and the `Config` its `config` pointer refers to. -/
structure Client where
  http : http.Client
  config : Config

/-- What a call of `doAPI` leaves behind: the returned error, the target `res`
points to, the requests handed to `Do`, and the client with its `Config`. -/
structure APIResult (τ : Type) where
  err : Option Error
  res : Option τ
  sent : List Request
  client : Client

/-- Method `doAPI` of mastodon.go.  The argument `res` is `none` for a nil
interface and `some target` for a pointer to a target, whose type decodes
JSON by `unmarshal`. -/
def Client.doAPI {τ : Type} (lib : Stdlib) (unmarshal : JSON → τ → τ × Option Error)
    (c : Client) (method uri : GoString) (params : Values) (res : Option τ) : APIResult τ :=
  match lib.Parse c.config.Server with
  | .error err => { err := some err, res := res, sent := [], client := c }
  | .ok url =>
    let url := { url with Path := lib.Join url.Path uri }
    match NewRequest lib method (lib.String url) (Values.Encode params) with
    | .error err => { err := some err, res := res, sent := [], client := c }
    | .ok req =>
      let req := { req with
        Header := Header.Set req.Header (str "Authorization") (str "Bearer " ++ c.config.AccessToken) }
      match c.http.Do req with
      | .error err => { err := some err, res := res, sent := [req], client := c }
      | .ok resp =>
        match res with
        | none => { err := none, res := none, sent := [req], client := c }
        | some target =>
          if method = MethodGet ∧ resp.StatusCode ≠ StatusOK then
            { err := some (str "bad request: " ++ resp.Status), res := some target,
              sent := [req], client := c }
          else
            let d := Decode unmarshal resp.Body target
            { err := d.2, res := some d.1, sent := [req], client := c }

/-- NewClient return new mastodon API client. -/
def NewClient (DefaultClient : http.Client) (config : Config) : Client :=
  { http := DefaultClient, config := config }

/-- The local `res` of `Authenticate`:
``struct { AccessToken string `json:"access_token"` }``. -/
structure TokenResponse where
  AccessToken : GoString
deriving DecidableEq

/-- Storing the members of a JSON object into a `TokenResponse`, in order; the
first type error is kept and the remaining members are still stored. -/
def unmarshalTokenMembers :
    List (GoString × JSON) → TokenResponse → Option Error → TokenResponse × Option Error
  | [], t, err => (t, err)
  | (k, v) :: rest, t, err =>
    if fieldMatches (str "access_token") k then
      unmarshalTokenMembers rest { AccessToken := (storeString v t.AccessToken).1 }
        (if err = none then (storeString v t.AccessToken).2 else err)
    else unmarshalTokenMembers rest t err

/-- Storing a JSON value into a `TokenResponse`: `null` leaves it as it is, an
object is stored member by member, anything else is an `UnmarshalTypeError`. -/
def unmarshalToken (v : JSON) (t : TokenResponse) : TokenResponse × Option Error :=
  match v with
  | JSON.null => (t, none)
  | JSON.object members => unmarshalTokenMembers members t none
  | _ => (t, some errType)

/-- What a call of `Authenticate` leaves behind: the returned error, the
requests handed to `Do`, and the client with its `Config`. -/
structure AuthResult where
  err : Option Error
  sent : List Request
  client : Client

/-- The form `params` that `Authenticate` builds with six calls of `Set`. -/
def authParams (config : Config) (username password : GoString) : Values :=
  let params : Values := []
  let params := Values.Set params (str "client_id") config.ClientID
  let params := Values.Set params (str "client_secret") config.ClientSecret
  let params := Values.Set params (str "grant_type") (str "password")
  let params := Values.Set params (str "username") username
  let params := Values.Set params (str "password") password
  Values.Set params (str "scope") (str "read write follow")

/-- Authenticate get access-token to the API. -/
def Client.Authenticate (lib : Stdlib) (c : Client) (username password : GoString) : AuthResult :=
  let params := authParams c.config username password
  match lib.Parse c.config.Server with
  | .error err => { err := some err, sent := [], client := c }
  | .ok url =>
    let url := { url with Path := lib.Join url.Path (str "/oauth/token") }
    match NewRequest lib MethodPost (lib.String url) (Values.Encode params) with
    | .error err => { err := some err, sent := [], client := c }
    | .ok req =>
      let req := { req with
        Header := Header.Set req.Header (str "Content-Type") (str "application/x-www-form-urlencoded") }
      match c.http.Do req with
      | .error err => { err := some err, sent := [req], client := c }
      | .ok resp =>
        if resp.StatusCode ≠ StatusOK then
          { err := some (str "bad authorization: " ++ resp.Status), sent := [req], client := c }
        else
          let res : TokenResponse := { AccessToken := [] }
          let d := Decode unmarshalToken resp.Body res
          match d.2 with
          | some err => { err := some err, sent := [req], client := c }
          | none =>
            { err := none, sent := [req],
              client := { c with config := { c.config with AccessToken := d.1.AccessToken } } }

/-! ## Fixtures: the servers of mastodon_test.go -/

/-- The field `PostForm` after `(*http.Request).ParseForm`: the body of a POST, PUT
or PATCH request with the form content type, parsed as a query; the values
parsed before an error are kept.  The content type is compared as a whole
(no media type parameters), and the library's bound of 10 MB on the size of
the body is left out. -/
def Request.PostForm (r : Request) : Values :=
  if (r.Method = str "POST" ∨ r.Method = str "PUT" ∨ r.Method = str "PATCH") ∧
      Header.Get r.Header (str "Content-Type") = str "application/x-www-form-urlencoded"
  then (ParseQuery r.Body).1 else []

/-- Method `(*http.Request).FormValue`: the first value of the key in the field
`Form`, where the values of the body come before those of the URL query. -/
def Request.FormValue (r : Request) (key : GoString) : GoString :=
  (Values.lookup r.PostForm key ++ Values.lookup (ParseQuery r.URL.RawQuery).1 key).headD []

/-- Function `http.Error(w, http.StatusText(code), code)` for `StatusBadRequest`. -/
def badRequest : Response :=
  { StatusCode := 400, Status := str "400 Bad Request", Body := str "Bad Request\n" }

/-- The handler of `TestAuthenticate`: 400 unless the form holds username
`valid` and password `user`, else the line ``{"AccessToken": "zoo"}``. -/
def authHandler : http.Client :=
  { Do := fun r =>
      if r.FormValue (str "username") ≠ str "valid" ∨ r.FormValue (str "password") ≠ str "user"
      then .ok badRequest
      else .ok { StatusCode := 200, Status := str "200 OK",
                 Body := str "\x7b\"AccessToken\": \"zoo\"\x7d\n" } }

/-- The handler of `TestPostStatus`: 400 unless the request carries
`Authorization: Bearer zoo`. -/
def postStatusHandler : http.Client :=
  { Do := fun r =>
      if Header.Get r.Header (str "Authorization") ≠ str "Bearer zoo" then .ok badRequest
      else .ok { StatusCode := 200, Status := str "200 OK",
                 Body := str "\x7b\"AccessToken\": \"zoo\"\x7d\n" } }

/-- The body of a token response as a Mastodon server writes it. -/
def tokenBody : GoString :=
  str "\x7b\"access_token\": \"zoo\", \"token_type\": \"bearer\"\x7d"

/-- A token endpoint that answers every request with 200 and `tokenBody`. -/
def tokenHandler : http.Client :=
  { Do := fun _ => .ok { StatusCode := 200, Status := str "200 OK", Body := tokenBody } }

/-- A server that answers every request with 404 and a JSON error document. -/
def notFoundHandler : http.Client :=
  { Do := fun _ =>
      .ok { StatusCode := 404, Status := str "404 Not Found",
            Body := str "\x7b\"error\": \"Record not found\"\x7d" } }

/-- The library functions on the URLs of the fixtures, `http://host` followed by
an optional path without query or fragment: `url.Parse` splits host and path,
`String` puts them together again, `path.Join` of an empty first element and
a clean path is that path. -/
def fixtureLib : Stdlib :=
  { Parse := fun s =>
      match dropStart (str "http://") s with
      | none => .error (str "parse: first path segment in URL cannot contain colon")
      | some rest =>
        .ok { Scheme := str "http", Host := (cutAt 47 [] rest).1,
              Path := match (cutAt 47 [] rest).2 with
                | none => []
                | some p => (47 : Byte) :: p,
              RawQuery := [], Fragment := [] }
    String := fun u => u.Scheme ++ str "://" ++ u.Host ++ u.Path
    Join := fun a b => if a = [] then b else a ++ b }

/-- The `Config` of the tests, with the test server at `http://127.0.0.1`. -/
def testConfig (token : GoString) : Config :=
  { Server := str "http://127.0.0.1", ClientID := str "foo", ClientSecret := str "bar",
    AccessToken := token }

/-! ## The event stream

The streaming code of the repository is not among the sources (only its test,
`TestStreamingPublic`, is); this section follows the specification of the
event-stream subsystem: Transport, Frame Reader, Event Decoder and Stream
Controller.  A session is observed on a response body that ends with a clean
end-of-stream and is not cancelled; the events published on the channel before
it closes are a list. -/

/-- Modelled from the spec: the Status entity (its declaration is missing from the
sources), "a posted message entity with at least textual content". -/
structure Status where
  Content : GoString
deriving DecidableEq

/-- Modelled from the spec: the Notification entity (its declaration is missing
from the sources); its schema is an external contract, so the entity is kept
as the text of the JSON object it was decoded from. -/
structure Notification where
  object : GoString
deriving DecidableEq

/-- Modelled from the spec: the closed union Event (its declaration is missing
from the sources) with the variants Update, Notification, Delete and Error. -/
inductive Event where
  | Update (status : Status)
  | Notification (notification : Notification)
  | Delete (id : Int)
  | Error (err : Error)
deriving DecidableEq

/-- Modelled from the spec: a Frame (its declaration is missing from the
sources), an event-type label and a raw payload. -/
structure Frame where
  label : GoString
  payload : GoString
deriving DecidableEq

/-- Modelled from the spec: the newline-delimited records of the Frame Reader (its
code is missing from the sources); the bytes after the last newline are a
record when there are any. -/
def scanLines : GoString → GoString → List GoString
  | cur, [] => if cur = [] then [] else [cur]
  | cur, c :: rest =>
    if c = (10 : Byte) then cur :: scanLines [] rest else scanLines (cur ++ [c]) rest

/-- Modelled from the spec: the accumulator of the Frame Reader (its code is
missing from the sources) for the current frame's label and payload, with
`seen` set once a label or data line has been read. -/
structure Accumulator where
  label : GoString
  payload : GoString
  seen : Bool
deriving DecidableEq

/-- The accumulator after a reset. -/
def Accumulator.reset : Accumulator :=
  { label := [], payload := [], seen := false }

/-- Modelled from the spec: one record read by the Frame Reader (its code is
missing from the sources).  `event: <label>` sets the label, `data: <text>`
appends the text to the payload, a blank line with pending content emits the
frame and resets the accumulator, every other line is ignored. -/
def readLine (a : Accumulator) (line : GoString) : Accumulator × Option Frame :=
  match dropStart (str "event: ") line with
  | some label => ({ a with label := label, seen := true }, none)
  | none =>
    match dropStart (str "data: ") line with
    | some text => ({ a with payload := a.payload ++ text, seen := true }, none)
    | none =>
      if line = [] ∧ a.seen = true then
        (Accumulator.reset, some { label := a.label, payload := a.payload })
      else (a, none)

/-- Modelled from the spec: the frames the Frame Reader (its code is missing from
the sources) produces from the records; what is pending when the records end
is discarded. -/
def readFrames : Accumulator → List GoString → List Frame
  | _, [] => []
  | a, line :: rest =>
    match (readLine a line).2 with
    | some f => f :: readFrames (readLine a line).1 rest
    | none => readFrames (readLine a line).1 rest

/-- Modelled from the spec: the Frame Reader (its code is missing from the
sources) on a whole response body. -/
def FrameReader (body : GoString) : List Frame :=
  readFrames Accumulator.reset (scanLines [] body)

/-- A payload as one JSON value: the whole text, white space apart. -/
def parsePayload (text : GoString) : Except Error JSON :=
  match parseValue (2 * text.length + 2) 0 text with
  | .error e => .error e
  | .ok (v, rest) => if skipSpace rest = [] then .ok v else .error errSyntax

/-- Modelled from the spec: decoding of the members of a JSON object into a
Status (its code is missing from the sources): the member `content`, matched
as Go matches member names, must be a string; unknown members are ignored.
The spec names no required member: an object without `content` decodes to an
empty Content. -/
def statusMembers : List (GoString × JSON) → Status → Except Error Status
  | [], s => .ok s
  | (k, v) :: rest, s =>
    if fieldMatches (str "content") k then
      match v with
      | JSON.string text => statusMembers rest { Content := text }
      | _ => .error errType
    else statusMembers rest s

/-- Value of a run of decimal digits. -/
def digitsValue (ds : GoString) : Nat :=
  ds.foldl (fun n d => 10 * n + (d.val - 48)) 0

/-- Modelled from the spec: a JSON integer (the decoder's code is missing from the
sources): a number literal without fraction or exponent. -/
def intValue : GoString → Option Int
  | [] => none
  | c :: rest =>
    if c.val = 45 then
      if rest ≠ [] ∧ rest.all isDigit then some (-(digitsValue rest : Int)) else none
    else if (c :: rest).all isDigit then some (digitsValue (c :: rest) : Int)
    else none

/-- The decode error for a label outside the table. -/
def errUnknownEvent : Error := str "unknown event type"

/-- Modelled from the spec: the Event Decoder (its code is missing from the
sources).  Dispatch is by label: `update` decodes a JSON object as a Status,
`notification` a JSON object as a Notification, `delete` a JSON integer;
anything else is the decode error "unknown event type"; a payload that does
not decode is a decode error. -/
def decodeEvent (f : Frame) : Except Error Event :=
  if f.label = str "update" then
    match parsePayload f.payload with
    | .error e => .error e
    | .ok (JSON.object members) =>
      match statusMembers members { Content := [] } with
      | .ok s => .ok (Event.Update s)
      | .error e => .error e
    | .ok _ => .error errType
  else if f.label = str "notification" then
    match parsePayload f.payload with
    | .error e => .error e
    | .ok (JSON.object _) => .ok (Event.Notification { object := f.payload })
    | .ok _ => .error errType
  else if f.label = str "delete" then
    match parsePayload f.payload with
    | .error e => .error e
    | .ok (JSON.number lit) =>
      match intValue lit with
      | some id => .ok (Event.Delete id)
      | none => .error errType
    | .ok _ => .error errType
  else .error errUnknownEvent

/-- Modelled from the spec: what the Stream Controller (its code is missing from
the sources) publishes for one frame: the decoded event, or the decode error
wrapped into an Error event. -/
def publish (f : Frame) : Event :=
  match decodeEvent f with
  | .ok e => e
  | .error err => Event.Error err

/-- Modelled from the spec: the background unit of the Stream Controller (its code
is missing from the sources) on a response body: every frame of the Frame
Reader goes through the Event Decoder and is published, in arrival order. -/
def handleStream (body : GoString) : List Event :=
  (FrameReader body).map publish

/-- Modelled from the spec: the Transport boundary `Send` (its code is missing
from the sources): one HTTP request carrying the bearer credential, built as
`doAPI` builds its request, and the response with its body. -/
def Client.Send (lib : Stdlib) (c : Client) (method path : GoString) (params : Values) :
    Except Error Response :=
  match lib.Parse c.config.Server with
  | .error err => .error err
  | .ok url =>
    match NewRequest lib method (lib.String { url with Path := lib.Join url.Path path })
        (Values.Encode params) with
    | .error err => .error err
    | .ok req =>
      c.http.Do { req with
        Header := Header.Set req.Header (str "Authorization") (str "Bearer " ++ c.config.AccessToken) }

/-- Modelled from the spec: the operation Open of the Stream Controller for the
public timeline, `StreamingPublic` (its code is missing from the sources).  A
connection failure (transport error, status other than 200) is returned and
no session is created; otherwise the result is the events the session
publishes before the channel is closed. -/
def Client.StreamingPublic (lib : Stdlib) (c : Client) : Except Error (List Event) :=
  match c.Send lib MethodGet (str "/api/v1/streaming/public") [] with
  | .error err => .error err
  | .ok resp =>
    if resp.StatusCode ≠ StatusOK then .error (str "bad request: " ++ resp.Status)
    else .ok (handleStream resp.Body)

/-- One complete block of the wire format: an `event:` line, a `data:` line and
the blank line that ends the frame. -/
def block (label text : GoString) : GoString :=
  str "event: " ++ label ++ (10 : Byte) :: (str "data: " ++ text ++ [(10 : Byte), (10 : Byte)])

/-- A body made of complete blocks, in order. -/
def blocks : List (GoString × GoString) → GoString
  | [] => []
  | (label, text) :: rest => block label text ++ blocks rest

/-- The handler of `TestStreamingPublic`: 404 off the streaming path, else the
two chunks the test writes with `Fprintln`. -/
def streamingHandler : http.Client :=
  { Do := fun r =>
      if r.URL.Path ≠ str "/api/v1/streaming/public" then
        .ok { StatusCode := 404, Status := str "404 Not Found", Body := str "Not Found\n" }
      else
        .ok { StatusCode := 200, Status := str "200 OK",
              Body := str "\nevent: update\ndata: \x7b\"Content\": \"foo\"\x7d\n\t\t\n" ++
                str "\nevent: update\ndata: \x7b\"Content\": \"bar\"\x7d\n\t\t\n" } }

/-- The accumulator of the Frame Reader after the records. -/
def stateAfter : Accumulator → List GoString → Accumulator
  | a, [] => a
  | a, line :: rest => stateAfter (readLine a line).1 rest

/-- An accumulator that has seen nothing holds nothing. -/
def Accumulator.clean (a : Accumulator) : Prop :=
  a.seen = false → a = Accumulator.reset

/-- Records written out, each followed by its newline. -/
def records : List GoString → GoString
  | [] => []
  | l :: rest => l ++ (10 : Byte) :: records rest

/-- An event-type label outside the table of the Event Decoder. -/
def unknownLabel (label : GoString) : Prop :=
  label ≠ str "update" ∧ label ≠ str "notification" ∧ label ≠ str "delete"

/-- A place in a body where a frame starts: the start of the body, or right
after a blank line. -/
def frameStart (pre : GoString) : Prop :=
  pre = [] ∨ ∃ p, pre = p ++ [(10 : Byte), (10 : Byte)]

/-- The two payloads of the end-to-end scenario. -/
def fooBar : List (GoString × GoString) :=
  [(str "update", str "\x7b\"Content\":\"foo\"\x7d"), (str "update", str "\x7b\"Content\":\"bar\"\x7d")]

/-- The request `Authenticate` hands to the test server for a user. -/
def testAuthRequest (username password : GoString) : Request :=
  { Method := str "POST",
    URL := { Scheme := str "http", Host := str "127.0.0.1", Path := str "/oauth/token",
             RawQuery := [], Fragment := [] },
    Header := [(str "Content-Type", [str "application/x-www-form-urlencoded"])],
    Body := str "client_id=foo&client_secret=bar&grant_type=password&password=" ++ password ++
      str "&scope=read+write+follow&username=" ++ username }

/-- The request `doAPI` hands to the test server. -/
def testAPIRequest (method path token : GoString) : Request :=
  { Method := method,
    URL := { Scheme := str "http", Host := str "127.0.0.1", Path := path,
             RawQuery := [], Fragment := [] },
    Header := [(str "Authorization", [str "Bearer " ++ token])],
    Body := [] }

/-- The response of `notFoundHandler`. -/
def notFound : Response :=
  { StatusCode := 404, Status := str "404 Not Found",
    Body := str "\x7b\"error\": \"Record not found\"\x7d" }

/-- One `key=value` piece of an encoded form. -/
def formPiece (kv : GoString × GoString) : GoString :=
  QueryEscape kv.1 ++ (61 : Byte) :: QueryEscape kv.2

/-- The six pairs of the form of `Authenticate`, in key order. -/
def authPairs (config : Config) (username password : GoString) : List (GoString × GoString) :=
  [(str "client_id", config.ClientID), (str "client_secret", config.ClientSecret),
   (str "grant_type", str "password"), (str "password", password),
   (str "scope", str "read write follow"), (str "username", username)]

/-- The form a server parses from the body of `Authenticate`: six keys, one value
each. -/
def authForm (config : Config) (username password : GoString) : Values :=
  [(str "client_id", [config.ClientID]), (str "client_secret", [config.ClientSecret]),
   (str "grant_type", [str "password"]), (str "password", [password]),
   (str "scope", [str "read write follow"]), (str "username", [username])]

/-! # Verification -/

/-! ## Lemmas on the request path -/

theorem lookup_assign_nil (key : GoString) (values : List GoString) :
    Header.lookup (Header.assign [] key values) key = values := by
  simp [Header.assign, Header.lookup]

theorem Header_Get_Set_nil (key value : GoString) :
    Header.Get (Header.Set [] key value) key = value := by
  simp [Header.Get, Header.Set, lookup_assign_nil]

/-- A request made by `NewRequest` has no header yet and carries the body. -/
theorem NewRequest_ok (lib : Stdlib) (method url body : GoString) (req : Request)
    (h : NewRequest lib method url body = .ok req) :
    req.Header = [] ∧ req.Body = body ∧ req.Method = (if method = [] then MethodGet else method) := by
  unfold NewRequest at h
  simp only [] at h
  generalize (if method = [] then MethodGet else method) = m at h ⊢
  by_cases hv : validMethod m = true
  · rw [if_neg (not_not.mpr hv)] at h
    cases hq : lib.Parse url with
    | error e => rw [hq] at h; cases h
    | ok u => rw [hq] at h; cases h; exact ⟨rfl, rfl, rfl⟩
  · rw [if_pos hv] at h
    cases h

/-- The five ways through `Authenticate`: no request sent, transport error,
status other than 200, decoding error, success. -/
theorem Authenticate_paths (lib : Stdlib) (c : Client) (username password : GoString) :
    ((c.Authenticate lib username password).sent = [] ∧
        (c.Authenticate lib username password).err ≠ none ∧
        (c.Authenticate lib username password).client = c) ∨
    (∃ req e, (c.Authenticate lib username password).sent = [req] ∧
        c.http.Do req = .error e ∧
        (c.Authenticate lib username password).err = some e ∧
        (c.Authenticate lib username password).client = c) ∨
    (∃ req resp, (c.Authenticate lib username password).sent = [req] ∧
        c.http.Do req = .ok resp ∧ resp.StatusCode ≠ StatusOK ∧
        (c.Authenticate lib username password).err =
          some (str "bad authorization: " ++ resp.Status) ∧
        (c.Authenticate lib username password).client = c) ∨
    (∃ req resp e, (c.Authenticate lib username password).sent = [req] ∧
        c.http.Do req = .ok resp ∧ resp.StatusCode = StatusOK ∧
        (Decode unmarshalToken resp.Body { AccessToken := [] }).2 = some e ∧
        (c.Authenticate lib username password).err = some e ∧
        (c.Authenticate lib username password).client = c) ∨
    (∃ req resp, (c.Authenticate lib username password).sent = [req] ∧
        c.http.Do req = .ok resp ∧ resp.StatusCode = StatusOK ∧
        (Decode unmarshalToken resp.Body { AccessToken := [] }).2 = none ∧
        (c.Authenticate lib username password).err = none ∧
        (c.Authenticate lib username password).client =
          { c with config := { c.config with
              AccessToken := (Decode unmarshalToken resp.Body { AccessToken := [] }).1.AccessToken } }) := by
  unfold Client.Authenticate
  cases hp : lib.Parse c.config.Server with
  | error e => left; simp
  | ok url =>
    simp only []
    generalize NewRequest lib MethodPost _ _ = nr
    cases nr with
    | error e => left; simp
    | ok req0 =>
      right
      simp only []
      generalize Request.mk _ _ _ _ = rq
      cases hd : c.http.Do rq with
      | error e => left; exact ⟨rq, e, rfl, hd, rfl, rfl⟩
      | ok resp =>
        right
        simp only []
        by_cases hs : resp.StatusCode = StatusOK
        · right
          rw [if_neg (not_not.mpr hs)]
          cases hdec : (Decode unmarshalToken resp.Body { AccessToken := [] }).2 with
          | some e => left; exact ⟨rq, resp, e, rfl, hd, hs, hdec, rfl, rfl⟩
          | none => right; exact ⟨rq, resp, rfl, hd, hs, hdec, rfl, rfl⟩
        · left
          rw [if_pos hs]
          exact ⟨rq, resp, rfl, hd, hs, rfl, rfl⟩

/-- The ways through `doAPI`: no request sent, transport error, or a response,
for which the result target, the method and the status decide. -/
theorem doAPI_paths {τ : Type} (lib : Stdlib) (unmarshal : JSON → τ → τ × Option Error)
    (c : Client) (method uri : GoString) (params : Values) (res : Option τ) :
    ((c.doAPI lib unmarshal method uri params res).sent = [] ∧
        (c.doAPI lib unmarshal method uri params res).err ≠ none ∧
        (c.doAPI lib unmarshal method uri params res).res = res) ∨
    (∃ req e, (c.doAPI lib unmarshal method uri params res).sent = [req] ∧
        c.http.Do req = .error e ∧
        (c.doAPI lib unmarshal method uri params res).err = some e ∧
        (c.doAPI lib unmarshal method uri params res).res = res) ∨
    (∃ req resp, (c.doAPI lib unmarshal method uri params res).sent = [req] ∧
        c.http.Do req = .ok resp ∧
        ((res = none ∧ (c.doAPI lib unmarshal method uri params res).err = none ∧
            (c.doAPI lib unmarshal method uri params res).res = none) ∨
         (∃ target, res = some target ∧ method = MethodGet ∧ resp.StatusCode ≠ StatusOK ∧
            (c.doAPI lib unmarshal method uri params res).err =
              some (str "bad request: " ++ resp.Status) ∧
            (c.doAPI lib unmarshal method uri params res).res = some target) ∨
         (∃ target, res = some target ∧ ¬ (method = MethodGet ∧ resp.StatusCode ≠ StatusOK) ∧
            (c.doAPI lib unmarshal method uri params res).err =
              (Decode unmarshal resp.Body target).2 ∧
            (c.doAPI lib unmarshal method uri params res).res =
              some (Decode unmarshal resp.Body target).1))) := by
  unfold Client.doAPI
  cases hp : lib.Parse c.config.Server with
  | error e => left; simp
  | ok url =>
    simp only []
    generalize NewRequest lib method _ _ = nr
    cases nr with
    | error e => left; simp
    | ok req0 =>
      right
      simp only []
      generalize Request.mk _ _ _ _ = rq
      cases hd : c.http.Do rq with
      | error e => left; exact ⟨rq, e, rfl, hd, rfl, rfl⟩
      | ok resp =>
        right
        simp only []
        cases res with
        | none => exact ⟨rq, resp, rfl, hd, Or.inl ⟨rfl, rfl, rfl⟩⟩
        | some target =>
          simp only []
          by_cases hg : method = MethodGet ∧ resp.StatusCode ≠ StatusOK
          · rw [if_pos hg]
            exact ⟨rq, resp, rfl, hd, Or.inr (Or.inl ⟨target, rfl, hg.1, hg.2, rfl, rfl⟩)⟩
          · rw [if_neg hg]
            exact ⟨rq, resp, rfl, hd, Or.inr (Or.inr ⟨target, rfl, hg, rfl, rfl⟩)⟩

/-- The client is the same after `doAPI`. -/
theorem doAPI_client {τ : Type} (lib : Stdlib) (unmarshal : JSON → τ → τ × Option Error)
    (c : Client) (method uri : GoString) (params : Values) (res : Option τ) :
    (c.doAPI lib unmarshal method uri params res).client = c := by
  unfold Client.doAPI
  split
  · rfl
  · simp only []
    split
    · rfl
    · split
      · rfl
      · split
        · rfl
        · split <;> rfl

/-- What `doAPI` sends: nothing when the method or the URL is refused, else the
one request of `NewRequest` with the Authorization header set. -/
theorem doAPI_sent {τ : Type} (lib : Stdlib) (unmarshal : JSON → τ → τ × Option Error)
    (c : Client) (method uri : GoString) (params : Values) (res : Option τ) (url : URL)
    (hp : lib.Parse c.config.Server = .ok url) :
    (c.doAPI lib unmarshal method uri params res).sent =
      match NewRequest lib method (lib.String { url with Path := lib.Join url.Path uri })
          (Values.Encode params) with
      | .error _ => []
      | .ok req =>
        [{ req with
            Header := Header.Set req.Header (str "Authorization") (str "Bearer " ++ c.config.AccessToken) }] := by
  unfold Client.doAPI
  rw [hp]
  simp only []
  generalize NewRequest lib method _ _ = nr
  cases nr with
  | error e => rfl
  | ok req0 =>
    simp only []
    split
    · rfl
    · split
      · rfl
      · split <;> rfl

/-! ## Authenticate -/

theorem fieldMatches_exact (name : GoString) : fieldMatches name name = true := by
  simp [fieldMatches]

/-- Members are stored one after the other. -/
theorem unmarshalTokenMembers_append (pre rest : List (GoString × JSON)) (t : TokenResponse)
    (err : Option Error) :
    unmarshalTokenMembers (pre ++ rest) t err =
      unmarshalTokenMembers rest (unmarshalTokenMembers pre t err).1
        (unmarshalTokenMembers pre t err).2 := by
  induction pre generalizing t err with
  | nil => rfl
  | cons m pre ih =>
    obtain ⟨k, v⟩ := m
    simp only [List.cons_append, unmarshalTokenMembers]
    split
    · exact ih _ _
    · exact ih _ _

/-- Members that are not named `access_token`, or are null, change nothing. -/
theorem unmarshalTokenMembers_skip (members : List (GoString × JSON)) (t : TokenResponse)
    (err : Option Error)
    (h : ∀ m ∈ members, fieldMatches (str "access_token") m.1 = true → m.2 = JSON.null) :
    unmarshalTokenMembers members t err = (t, err) := by
  induction members generalizing t err with
  | nil => rfl
  | cons m members ih =>
    obtain ⟨k, v⟩ := m
    have hrest : ∀ m ∈ members, fieldMatches (str "access_token") m.1 = true → m.2 = JSON.null :=
      fun m hm => h m (List.mem_cons_of_mem _ hm)
    simp only [unmarshalTokenMembers]
    by_cases hk : fieldMatches (str "access_token") k = true
    · have hv : v = JSON.null := h (k, v) (List.mem_cons_self _ _) hk
      subst hv
      rw [if_pos hk, ih _ _ hrest]
      cases err <;> simp [storeString]
    · rw [if_neg hk, ih _ _ hrest]

/-- The string of the last member named `access_token` that is not null is what
ends up in the struct. -/
theorem unmarshalTokenMembers_last (pre post : List (GoString × JSON)) (k tok : GoString)
    (t : TokenResponse) (err : Option Error)
    (hk : fieldMatches (str "access_token") k = true)
    (hpost : ∀ m ∈ post, fieldMatches (str "access_token") m.1 = true → m.2 = JSON.null) :
    (unmarshalTokenMembers (pre ++ (k, JSON.string tok) :: post) t err).1 = { AccessToken := tok } := by
  rw [unmarshalTokenMembers_append]
  simp only [unmarshalTokenMembers]
  rw [if_pos hk, unmarshalTokenMembers_skip post _ _ hpost]
  simp [storeString]

/-- Storing without an error means every member named `access_token` was a
string or null. -/
theorem unmarshalTokenMembers_ok (members : List (GoString × JSON)) (t : TokenResponse)
    (err : Option Error) (h : (unmarshalTokenMembers members t err).2 = none) :
    err = none ∧ ∀ m ∈ members, fieldMatches (str "access_token") m.1 = true →
      m.2 = JSON.null ∨ ∃ tok, m.2 = JSON.string tok := by
  induction members generalizing t err with
  | nil => exact ⟨h, fun m hm => by cases hm⟩
  | cons m members ih =>
    obtain ⟨k, v⟩ := m
    simp only [unmarshalTokenMembers] at h
    by_cases hk : fieldMatches (str "access_token") k = true
    · rw [if_pos hk] at h
      obtain ⟨herr, hall⟩ := ih _ _ h
      have herr0 : err = none := by
        cases err with
        | none => rfl
        | some e => simp at herr
      subst herr0
      simp only [↓reduceIte] at herr
      refine ⟨rfl, ?_⟩
      intro m hm hmatch
      rcases List.mem_cons.mp hm with hm | hm
      · subst hm
        cases v with
        | null => exact Or.inl rfl
        | string s => exact Or.inr ⟨s, rfl⟩
        | bool b => simp [storeString] at herr
        | number l => simp [storeString] at herr
        | array xs => simp [storeString] at herr
        | object ms => simp [storeString] at herr
      · exact hall m hm hmatch
    · rw [if_neg hk] at h
      obtain ⟨herr, hall⟩ := ih _ _ h
      refine ⟨herr, ?_⟩
      intro m hm hmatch
      rcases List.mem_cons.mp hm with hm | hm
      · subst hm; exact absurd hmatch hk
      · exact hall m hm hmatch

/-- What `Decode` stores into the response struct, by the value read from the body. -/
theorem Decode_token_of_value (body : GoString) (v : JSON) (t : TokenResponse)
    (h : readValue body = .ok v) : Decode unmarshalToken body t = unmarshalToken v t := by
  simp [Decode, h]

/-- A body that decodes into the response struct is `null` or an object. -/
theorem Decode_token_ok_value (body : GoString) (t : TokenResponse)
    (h : (Decode unmarshalToken body t).2 = none) :
    readValue body = .ok JSON.null ∨ ∃ members, readValue body = .ok (JSON.object members) := by
  unfold Decode at h
  cases hv : readValue body with
  | error e => rw [hv] at h; simp at h
  | ok v =>
    rw [hv] at h
    cases v with
    | null => exact Or.inl rfl
    | object ms => exact Or.inr ⟨ms, rfl⟩
    | bool b => simp [unmarshalToken] at h
    | number l => simp [unmarshalToken] at h
    | string s => simp [unmarshalToken] at h
    | array xs => simp [unmarshalToken] at h

/-- C1, as amended: when the token endpoint answers the request of Authenticate with
status 200 and a body that decodes as JSON into the response struct, the body
is `null` or an object whose members named `access_token` (exactly, or under
Go's folding of member names) are strings or null; Authenticate returns no
error, keeps the other fields of the Config, and Config.AccessToken is
afterwards the string of the last such member that is not null, so it is
non-empty whenever that string is; it is the empty string when the body is
`null` or has no such member. -/
theorem Authenticate_ok_sets_decoded_token (lib : Stdlib) (c : Client)
    (username password : GoString) (req : Request) (resp : Response)
    (hsent : (c.Authenticate lib username password).sent = [req])
    (hdo : c.http.Do req = .ok resp)
    (hstatus : resp.StatusCode = StatusOK)
    (hdec : (Decode unmarshalToken resp.Body { AccessToken := [] }).2 = none) :
    (c.Authenticate lib username password).err = none ∧
      (c.Authenticate lib username password).client.config =
        { c.config with
          AccessToken := (c.Authenticate lib username password).client.config.AccessToken } ∧
      (readValue resp.Body = .ok JSON.null ∨
        ∃ members, readValue resp.Body = .ok (JSON.object members)) ∧
      (∀ members, readValue resp.Body = .ok (JSON.object members) →
        ∀ m ∈ members, fieldMatches (str "access_token") m.1 = true →
          m.2 = JSON.null ∨ ∃ tok, m.2 = JSON.string tok) ∧
      (∀ members pre k tok post, readValue resp.Body = .ok (JSON.object members) →
        members = pre ++ (k, JSON.string tok) :: post →
        (k = str "access_token" ∨ fieldMatches (str "access_token") k = true) →
        (∀ m ∈ post, fieldMatches (str "access_token") m.1 = true → m.2 = JSON.null) →
        (c.Authenticate lib username password).client.config.AccessToken = tok ∧
          (tok ≠ [] → (c.Authenticate lib username password).client.config.AccessToken ≠ [])) ∧
      (∀ members, readValue resp.Body = .ok (JSON.object members) →
        (∀ m ∈ members, fieldMatches (str "access_token") m.1 = true → m.2 = JSON.null) →
        (c.Authenticate lib username password).client.config.AccessToken = []) ∧
      (readValue resp.Body = .ok JSON.null →
        (c.Authenticate lib username password).client.config.AccessToken = []) := by
  have hcfg : (c.Authenticate lib username password).err = none ∧
      (c.Authenticate lib username password).client.config =
        { c.config with
          AccessToken := (Decode unmarshalToken resp.Body { AccessToken := [] }).1.AccessToken } := by
    rcases Authenticate_paths lib c username password with
      ⟨h0, _, _⟩ | ⟨r, e, hs, hd, _, _⟩ | ⟨r, rp, hs, hd, hst, _, _⟩ |
      ⟨r, rp, e, hs, hd, _, hde, _, _⟩ | ⟨r, rp, hs, hd, _, _, herr, hcl⟩
    · rw [h0] at hsent; cases hsent
    · rw [hs] at hsent; cases hsent; rw [hd] at hdo; cases hdo
    · rw [hs] at hsent; cases hsent; rw [hd] at hdo; cases hdo; exact absurd hstatus hst
    · rw [hs] at hsent; cases hsent; rw [hd] at hdo; cases hdo; rw [hde] at hdec; cases hdec
    · rw [hs] at hsent; cases hsent; rw [hd] at hdo; cases hdo
      exact ⟨herr, by rw [hcl]⟩
  obtain ⟨herr, hconfig⟩ := hcfg
  have htok : (c.Authenticate lib username password).client.config.AccessToken =
      (Decode unmarshalToken resp.Body { AccessToken := [] }).1.AccessToken := by
    rw [hconfig]
  refine ⟨herr, ?_, Decode_token_ok_value _ _ hdec, ?_, ?_, ?_, ?_⟩
  · rw [hconfig]
  · intro members hread
    rw [Decode_token_of_value _ _ _ hread] at hdec
    exact (unmarshalTokenMembers_ok members _ _ hdec).2
  · intro members pre k tok post hread hmem hk hpost
    have hk2 : fieldMatches (str "access_token") k = true := by
      rcases hk with hk | hk
      · rw [hk]; exact fieldMatches_exact _
      · exact hk
    have h1 : (c.Authenticate lib username password).client.config.AccessToken = tok := by
      rw [htok, Decode_token_of_value _ _ _ hread, hmem]
      simp only [unmarshalToken]
      rw [unmarshalTokenMembers_last pre post k tok _ _ hk2 hpost]
    exact ⟨h1, fun hne => by rw [h1]; exact hne⟩
  · intro members hread hnone
    rw [htok, Decode_token_of_value _ _ _ hread]
    simp only [unmarshalToken]
    rw [unmarshalTokenMembers_skip members _ _ hnone]
  · intro hread
    rw [htok, Decode_token_of_value _ _ _ hread]
    rfl

/-- C1, as amended, at a token endpoint that answers 200 with the body
``{"access_token": "zoo", "token_type": "bearer"}``: no error, and the token
is "zoo", which is not empty. -/
theorem Authenticate_ok_sets_decoded_token_witness :
    ((NewClient tokenHandler (testConfig (str "old"))).Authenticate fixtureLib
        (str "valid") (str "user")).err = none ∧
      ((NewClient tokenHandler (testConfig (str "old"))).Authenticate fixtureLib
        (str "valid") (str "user")).client.config.AccessToken = str "zoo" ∧
      ((NewClient tokenHandler (testConfig (str "old"))).Authenticate fixtureLib
        (str "valid") (str "user")).client.config.AccessToken ≠ [] :=
  have h := Authenticate_ok_sets_decoded_token fixtureLib
    (NewClient tokenHandler (testConfig (str "old")))
    (str "valid") (str "user") (testAuthRequest (str "valid") (str "user"))
    { StatusCode := 200, Status := str "200 OK", Body := tokenBody }
    (by decide) (by decide) (by decide) (by decide)
  have htok := h.2.2.2.2.1
    [(str "access_token", JSON.string (str "zoo")), (str "token_type", JSON.string (str "bearer"))]
    [] (str "access_token") (str "zoo") [(str "token_type", JSON.string (str "bearer"))]
    (by rfl) rfl (Or.inl rfl)
    (by
      intro m hm hmatch
      rw [List.mem_singleton.mp hm] at hmatch
      exact absurd hmatch (by decide))
  ⟨h.1, htok.1, htok.2 (by decide)⟩

/-- C1, as stated, fails at the server of `TestAuthenticate`: for the valid user
the endpoint answers 200 with the body ``{"AccessToken": "zoo"}``, which
decodes as JSON; Authenticate returns no error and Config.AccessToken is the
empty string afterwards, because the member is not named `access_token`. -/
theorem Authenticate_valid_token_empty :
    ((NewClient authHandler (testConfig [])).Authenticate fixtureLib (str "valid") (str "user")).sent =
        [testAuthRequest (str "valid") (str "user")] ∧
      authHandler.Do (testAuthRequest (str "valid") (str "user")) =
        .ok { StatusCode := 200, Status := str "200 OK",
              Body := str "\x7b\"AccessToken\": \"zoo\"\x7d\n" } ∧
      (Decode unmarshalToken (str "\x7b\"AccessToken\": \"zoo\"\x7d\n") { AccessToken := [] }).2 = none ∧
      ((NewClient authHandler (testConfig [])).Authenticate fixtureLib (str "valid") (str "user")).err =
        none ∧
      ((NewClient authHandler (testConfig [])).Authenticate fixtureLib
        (str "valid") (str "user")).client.config.AccessToken = [] := by
  decide

/-- C2: when the token endpoint answers the request of Authenticate with a status
other than 200, Authenticate returns the non-nil error
"bad authorization: <status>" and the Config, AccessToken included, is what
it was before the call. -/
theorem Authenticate_non200_fails (lib : Stdlib) (c : Client)
    (username password : GoString) (req : Request) (resp : Response)
    (hsent : (c.Authenticate lib username password).sent = [req])
    (hdo : c.http.Do req = .ok resp)
    (hstatus : resp.StatusCode ≠ StatusOK) :
    (c.Authenticate lib username password).err = some (str "bad authorization: " ++ resp.Status) ∧
      (c.Authenticate lib username password).err ≠ none ∧
      (c.Authenticate lib username password).client.config.AccessToken = c.config.AccessToken ∧
      (c.Authenticate lib username password).client.config = c.config := by
  rcases Authenticate_paths lib c username password with
    ⟨h0, _, _⟩ | ⟨r, e, hs, hd, _, _⟩ | ⟨r, rp, hs, hd, _, herr, hcl⟩ |
    ⟨r, rp, e, hs, hd, hst, _, _, _⟩ | ⟨r, rp, hs, hd, hst, _, _, _⟩
  · rw [h0] at hsent; cases hsent
  · rw [hs] at hsent; cases hsent; rw [hd] at hdo; cases hdo
  · rw [hs] at hsent; cases hsent; rw [hd] at hdo; cases hdo
    exact ⟨herr, by rw [herr]; simp, by rw [hcl], by rw [hcl]⟩
  · rw [hs] at hsent; cases hsent; rw [hd] at hdo; cases hdo; exact absurd hst hstatus
  · rw [hs] at hsent; cases hsent; rw [hd] at hdo; cases hdo; exact absurd hst hstatus

/-- C2 at the server of `TestAuthenticate` with the invalid user. -/
theorem Authenticate_non200_fails_witness :
    ((NewClient authHandler (testConfig (str "old"))).Authenticate fixtureLib
        (str "invalid") (str "user")).err = some (str "bad authorization: " ++ badRequest.Status) ∧
      ((NewClient authHandler (testConfig (str "old"))).Authenticate fixtureLib
        (str "invalid") (str "user")).err ≠ none ∧
      ((NewClient authHandler (testConfig (str "old"))).Authenticate fixtureLib
        (str "invalid") (str "user")).client.config.AccessToken =
        (NewClient authHandler (testConfig (str "old"))).config.AccessToken ∧
      ((NewClient authHandler (testConfig (str "old"))).Authenticate fixtureLib
        (str "invalid") (str "user")).client.config =
        (NewClient authHandler (testConfig (str "old"))).config :=
  Authenticate_non200_fails fixtureLib (NewClient authHandler (testConfig (str "old")))
    (str "invalid") (str "user") (testAuthRequest (str "invalid") (str "user")) badRequest
    (by decide) (by decide) (by decide)

/-! ## doAPI -/

/-- C3, as amended: for a GET request with a result target, if the server's response
status is not 200 then doAPI returns the non-nil error
"bad request: <status>" and leaves the target as it was. -/
theorem doAPI_get_non200_fails {τ : Type} (lib : Stdlib)
    (unmarshal : JSON → τ → τ × Option Error) (c : Client) (uri : GoString) (params : Values)
    (target : τ) (req : Request) (resp : Response)
    (hsent : (c.doAPI lib unmarshal MethodGet uri params (some target)).sent = [req])
    (hdo : c.http.Do req = .ok resp)
    (hstatus : resp.StatusCode ≠ StatusOK) :
    (c.doAPI lib unmarshal MethodGet uri params (some target)).err =
        some (str "bad request: " ++ resp.Status) ∧
      (c.doAPI lib unmarshal MethodGet uri params (some target)).err ≠ none ∧
      (c.doAPI lib unmarshal MethodGet uri params (some target)).res = some target := by
  rcases doAPI_paths lib unmarshal c MethodGet uri params (some target) with
    ⟨h0, _, _⟩ | ⟨r, e, hs, hd, _, _⟩ | ⟨r, rp, hs, hd, hcases⟩
  · rw [h0] at hsent; cases hsent
  · rw [hs] at hsent; cases hsent; rw [hd] at hdo; cases hdo
  · rw [hs] at hsent; cases hsent; rw [hd] at hdo; cases hdo
    rcases hcases with ⟨hn, _, _⟩ | ⟨t, ht, _, _, herr, hres⟩ | ⟨t, _, hng, _, _⟩
    · cases hn
    · cases ht; exact ⟨herr, by rw [herr]; simp, hres⟩
    · exact absurd ⟨rfl, hstatus⟩ hng

/-- C3, as amended, at the server that answers 404: a GET into a target fails. -/
theorem doAPI_get_non200_fails_witness :
    ((NewClient notFoundHandler (testConfig (str "zoo"))).doAPI fixtureLib unmarshalToken MethodGet
        (str "/api/v1/accounts/1") [] (some { AccessToken := [] })).err =
        some (str "bad request: " ++ notFound.Status) ∧
      ((NewClient notFoundHandler (testConfig (str "zoo"))).doAPI fixtureLib unmarshalToken MethodGet
        (str "/api/v1/accounts/1") [] (some { AccessToken := [] })).err ≠ none ∧
      ((NewClient notFoundHandler (testConfig (str "zoo"))).doAPI fixtureLib unmarshalToken MethodGet
        (str "/api/v1/accounts/1") [] (some { AccessToken := [] })).res = some { AccessToken := [] } :=
  doAPI_get_non200_fails fixtureLib unmarshalToken (NewClient notFoundHandler (testConfig (str "zoo")))
    (str "/api/v1/accounts/1") [] { AccessToken := [] }
    (testAPIRequest (str "GET") (str "/api/v1/accounts/1") (str "zoo")) notFound
    (by decide) (by decide) (by decide)

/-- C3, as stated, fails at a server that answers every request with status 404 and
a JSON document: a POST into a target returns the nil error of the decoding,
and a GET without a result target returns nil; in both calls the request was
sent and answered with 404. -/
theorem doAPI_non200_nil_error :
    ((NewClient notFoundHandler (testConfig (str "zoo"))).doAPI fixtureLib unmarshalToken MethodPost
        (str "/api/v1/statuses") [] (some { AccessToken := [] })).sent =
        [testAPIRequest (str "POST") (str "/api/v1/statuses") (str "zoo")] ∧
      notFoundHandler.Do (testAPIRequest (str "POST") (str "/api/v1/statuses") (str "zoo")) =
        .ok notFound ∧
      notFound.StatusCode = 404 ∧
      ((NewClient notFoundHandler (testConfig (str "zoo"))).doAPI fixtureLib unmarshalToken MethodPost
        (str "/api/v1/statuses") [] (some { AccessToken := [] })).err = none ∧
      ((NewClient notFoundHandler (testConfig (str "zoo"))).doAPI fixtureLib unmarshalToken MethodGet
        (str "/api/v1/accounts/1") [] (none : Option TokenResponse)).sent =
        [testAPIRequest (str "GET") (str "/api/v1/accounts/1") (str "zoo")] ∧
      notFoundHandler.Do (testAPIRequest (str "GET") (str "/api/v1/accounts/1") (str "zoo")) =
        .ok notFound ∧
      ((NewClient notFoundHandler (testConfig (str "zoo"))).doAPI fixtureLib unmarshalToken MethodGet
        (str "/api/v1/accounts/1") [] (none : Option TokenResponse)).err = none := by
  decide

/-- C4: for a Config whose Server parses as a URL, doAPI hands at most one request
to the HTTP client, exactly one when `NewRequest` accepts the method and the
URL, and that request carries as its Authorization header the one value
"Bearer " followed by Config.AccessToken. -/
theorem doAPI_sends_bearer_token {τ : Type} (lib : Stdlib)
    (unmarshal : JSON → τ → τ × Option Error) (c : Client) (method uri : GoString)
    (params : Values) (res : Option τ) (url : URL)
    (hparse : lib.Parse c.config.Server = .ok url) :
    (c.doAPI lib unmarshal method uri params res).sent.length ≤ 1 ∧
      (∀ req0, NewRequest lib method (lib.String { url with Path := lib.Join url.Path uri })
          (Values.Encode params) = .ok req0 →
        (c.doAPI lib unmarshal method uri params res).sent.length = 1) ∧
      (∀ req ∈ (c.doAPI lib unmarshal method uri params res).sent,
        Header.Get req.Header (str "Authorization") = str "Bearer " ++ c.config.AccessToken ∧
        Header.lookup req.Header (str "Authorization") = [str "Bearer " ++ c.config.AccessToken]) := by
  have hcanon : CanonicalMIMEHeaderKey (str "Authorization") = str "Authorization" := by decide
  rw [doAPI_sent lib unmarshal c method uri params res url hparse]
  cases hn : NewRequest lib method (lib.String { url with Path := lib.Join url.Path uri })
      (Values.Encode params) with
  | error e => simp
  | ok req0 =>
    have hh := (NewRequest_ok lib method _ _ req0 hn).1
    refine ⟨by simp, by simp, ?_⟩
    intro req hreq
    simp only [List.mem_singleton] at hreq
    subst hreq
    simp only [hh]
    refine ⟨Header_Get_Set_nil _ _, ?_⟩
    simp [Header.Set, hcanon, lookup_assign_nil]

/-- C4 at the test client configured with the token "zoo": the request sent
carries "Bearer zoo". -/
theorem doAPI_sends_bearer_token_witness :
    ((NewClient postStatusHandler (testConfig (str "zoo"))).doAPI fixtureLib unmarshalToken MethodPost
        (str "/api/v1/statuses") [] (some { AccessToken := [] })).sent.length = 1 ∧
      ∀ req ∈ ((NewClient postStatusHandler (testConfig (str "zoo"))).doAPI fixtureLib unmarshalToken
          MethodPost (str "/api/v1/statuses") [] (some { AccessToken := [] })).sent,
        Header.Get req.Header (str "Authorization") = str "Bearer zoo" :=
  ⟨(doAPI_sends_bearer_token fixtureLib unmarshalToken
      (NewClient postStatusHandler (testConfig (str "zoo"))) MethodPost (str "/api/v1/statuses") []
      (some { AccessToken := [] })
      { Scheme := str "http", Host := str "127.0.0.1", Path := [], RawQuery := [], Fragment := [] }
      (by decide)).2.1
      { Method := str "POST",
        URL := { Scheme := str "http", Host := str "127.0.0.1", Path := str "/api/v1/statuses",
                 RawQuery := [], Fragment := [] },
        Header := [], Body := [] }
      (by decide),
    fun req hreq =>
      ((doAPI_sends_bearer_token fixtureLib unmarshalToken
        (NewClient postStatusHandler (testConfig (str "zoo"))) MethodPost (str "/api/v1/statuses") []
        (some { AccessToken := [] })
        { Scheme := str "http", Host := str "127.0.0.1", Path := [], RawQuery := [], Fragment := [] }
        (by decide)).2.2 req hreq).1.trans (by decide)⟩

/-- C10: once doAPI has sent its request and received a response, the result is
decided in this order: with a nil result target it returns nil whatever the
status and the body; otherwise, for GET with a status other than 200, it
returns the error "bad request: <status>" and the target is untouched;
otherwise (another method with any status, or GET with 200) it returns
exactly what decoding the body as JSON into the target returns. -/
theorem doAPI_result_order {τ : Type} (lib : Stdlib)
    (unmarshal : JSON → τ → τ × Option Error) (c : Client) (method uri : GoString)
    (params : Values) (res : Option τ) (req : Request) (resp : Response)
    (hsent : (c.doAPI lib unmarshal method uri params res).sent = [req])
    (hdo : c.http.Do req = .ok resp) :
    (res = none →
        (c.doAPI lib unmarshal method uri params res).err = none ∧
        (c.doAPI lib unmarshal method uri params res).res = none) ∧
      (∀ target, res = some target → method = MethodGet → resp.StatusCode ≠ StatusOK →
        (c.doAPI lib unmarshal method uri params res).err = some (str "bad request: " ++ resp.Status) ∧
        (c.doAPI lib unmarshal method uri params res).res = some target) ∧
      (∀ target, res = some target → (method ≠ MethodGet ∨ resp.StatusCode = StatusOK) →
        (c.doAPI lib unmarshal method uri params res).err = (Decode unmarshal resp.Body target).2 ∧
        (c.doAPI lib unmarshal method uri params res).res =
          some (Decode unmarshal resp.Body target).1) := by
  rcases doAPI_paths lib unmarshal c method uri params res with
    ⟨h0, _, _⟩ | ⟨r, e, hs, hd, _, _⟩ | ⟨r, rp, hs, hd, hcases⟩
  · rw [h0] at hsent; cases hsent
  · rw [hs] at hsent; cases hsent; rw [hd] at hdo; cases hdo
  · rw [hs] at hsent; cases hsent; rw [hd] at hdo; cases hdo
    rcases hcases with ⟨hn, herr, hres⟩ | ⟨t, ht, hm, hst, herr, hres⟩ | ⟨t, ht, hng, herr, hres⟩
    · refine ⟨fun _ => ⟨herr, hres⟩, ?_, ?_⟩
      · intro target h; rw [hn] at h; cases h
      · intro target h; rw [hn] at h; cases h
    · refine ⟨?_, ?_, ?_⟩
      · intro h; rw [ht] at h; cases h
      · intro target h _ _; rw [ht] at h; cases h; exact ⟨herr, hres⟩
      · intro target _ h2
        rcases h2 with h2 | h2
        · exact absurd hm h2
        · exact absurd h2 hst
    · refine ⟨?_, ?_, ?_⟩
      · intro h; rw [ht] at h; cases h
      · intro target _ h2 h3; exact absurd ⟨h2, h3⟩ hng
      · intro target h _; rw [ht] at h; cases h; exact ⟨herr, hres⟩

/-- C10 at the server that answers 404 with a JSON document, for a POST into a
target: the result is that of the decoding. -/
theorem doAPI_result_order_witness :
    ((NewClient notFoundHandler (testConfig (str "zoo"))).doAPI fixtureLib unmarshalToken MethodPost
        (str "/api/v1/statuses") [] (some { AccessToken := [] })).err =
        (Decode unmarshalToken notFound.Body { AccessToken := [] }).2 ∧
      ((NewClient notFoundHandler (testConfig (str "zoo"))).doAPI fixtureLib unmarshalToken MethodPost
        (str "/api/v1/statuses") [] (some { AccessToken := [] })).res =
        some (Decode unmarshalToken notFound.Body { AccessToken := [] }).1 :=
  (doAPI_result_order fixtureLib unmarshalToken
    (NewClient notFoundHandler (testConfig (str "zoo"))) MethodPost (str "/api/v1/statuses") []
    (some { AccessToken := [] })
    (testAPIRequest (str "POST") (str "/api/v1/statuses") (str "zoo")) notFound
    (by decide) (by decide)).2.2 { AccessToken := [] } rfl (Or.inl (by decide))

/-! ## The Config -/

/-- C9: NewClient and doAPI leave the Config as it is; Authenticate never changes
Server, ClientID and ClientSecret; a call of Authenticate that returns an error
leaves the whole Config as it is, so AccessToken changes only in a call that
returns nil; and a call that returns nil was answered with status 200 and a
body that decoded, and sets AccessToken to the `access_token` string decoded
from that body. -/
theorem Config_changed_only_by_Authenticate {τ : Type} (lib : Stdlib)
    (unmarshal : JSON → τ → τ × Option Error) (DefaultClient : http.Client) (config : Config)
    (c : Client) (method uri : GoString) (params : Values) (res : Option τ)
    (username password : GoString) :
    (NewClient DefaultClient config).config = config ∧
      (c.doAPI lib unmarshal method uri params res).client.config = c.config ∧
      (c.Authenticate lib username password).client.config.Server = c.config.Server ∧
      (c.Authenticate lib username password).client.config.ClientID = c.config.ClientID ∧
      (c.Authenticate lib username password).client.config.ClientSecret = c.config.ClientSecret ∧
      ((c.Authenticate lib username password).err ≠ none →
        (c.Authenticate lib username password).client.config = c.config) ∧
      ((c.Authenticate lib username password).client.config.AccessToken ≠ c.config.AccessToken →
        (c.Authenticate lib username password).err = none) ∧
      ((c.Authenticate lib username password).err = none →
        ∃ req resp, (c.Authenticate lib username password).sent = [req] ∧
          c.http.Do req = .ok resp ∧ resp.StatusCode = StatusOK ∧
          (Decode unmarshalToken resp.Body { AccessToken := [] }).2 = none ∧
          (c.Authenticate lib username password).client.config =
            { c.config with
              AccessToken :=
                (Decode unmarshalToken resp.Body { AccessToken := [] }).1.AccessToken }) := by
  refine ⟨rfl, by rw [doAPI_client], ?_⟩
  rcases Authenticate_paths lib c username password with
    ⟨_, herr, hcl⟩ | ⟨r, e, _, _, herr, hcl⟩ | ⟨r, rp, _, _, _, herr, hcl⟩ |
    ⟨r, rp, e, _, _, _, _, herr, hcl⟩ | ⟨r, rp, hs, hd, hst, hde, herr, hcl⟩
  · rw [hcl]
    exact ⟨rfl, rfl, rfl, fun _ => rfl, fun h => absurd rfl h, fun h => absurd h herr⟩
  · rw [hcl, herr]
    exact ⟨rfl, rfl, rfl, fun _ => rfl, fun h => absurd rfl h, fun h => by cases h⟩
  · rw [hcl, herr]
    exact ⟨rfl, rfl, rfl, fun _ => rfl, fun h => absurd rfl h, fun h => by cases h⟩
  · rw [hcl, herr]
    exact ⟨rfl, rfl, rfl, fun _ => rfl, fun h => absurd rfl h, fun h => by cases h⟩
  · rw [hcl, herr]
    exact ⟨rfl, rfl, rfl, fun h => absurd rfl h, fun _ => rfl,
      fun _ => ⟨r, rp, hs, hd, hst, hde, rfl⟩⟩

/-! ## The form of Authenticate: escaping and parsing -/

theorem escape_digits_hex :
    ∀ c : Byte, (ishex (upperhex (c.val / 16)) && ishex (upperhex (c.val % 16))) = true := by
  decide

theorem escape_digits_value :
    ∀ c : Byte, (Fin.ofNat (16 * unhex (upperhex (c.val / 16)) + unhex (upperhex (c.val % 16))) : Byte) = c := by
  decide

theorem unescaped_not_special :
    ∀ c : Byte, shouldEscape c = false → c.val ≠ 37 ∧ c.val ≠ 43 := by
  decide

theorem space_byte : ∀ c : Byte, c.val = 32 → (32 : Byte) = c := by
  decide

/-- Unescaping an escaped string gives the string back. -/
theorem QueryUnescape_QueryEscape (s : GoString) : QueryUnescape (QueryEscape s) = .ok s := by
  induction s with
  | nil => rfl
  | cons c rest ih =>
    unfold QueryEscape
    by_cases h32 : c.val = 32
    · rw [if_pos h32]
      unfold QueryUnescape
      rw [if_neg (by decide), if_pos (by decide), ih]
      simp only []
      rw [space_byte c h32]
    · rw [if_neg h32]
      by_cases hesc : shouldEscape c = true
      · rw [if_pos hesc]
        unfold QueryUnescape
        rw [if_pos (by decide)]
        simp only []
        rw [if_pos (escape_digits_hex c), ih]
        simp only []
        rw [escape_digits_value c]
      · rw [if_neg hesc]
        have hns := unescaped_not_special c (by simpa using hesc)
        unfold QueryUnescape
        rw [if_neg hns.1, if_neg hns.2, ih]

/-- The bytes that split a query: `&`, `=` and `;`. -/
theorem escaped_byte_cases :
    ∀ c : Byte, (c.val ≠ 38 ∧ c.val ≠ 61 ∧ c.val ≠ 59) ∨ shouldEscape c = true := by
  decide

theorem upperhex_not_separator :
    ∀ c : Byte, (upperhex (c.val / 16)).val ≠ 38 ∧ (upperhex (c.val / 16)).val ≠ 61 ∧
      (upperhex (c.val / 16)).val ≠ 59 ∧ (upperhex (c.val % 16)).val ≠ 38 ∧
      (upperhex (c.val % 16)).val ≠ 61 ∧ (upperhex (c.val % 16)).val ≠ 59 := by
  decide

/-- An escaped string holds none of `&`, `=`, `;`. -/
theorem QueryEscape_no_separator (s : GoString) :
    ∀ b ∈ QueryEscape s, b.val ≠ 38 ∧ b.val ≠ 61 ∧ b.val ≠ 59 := by
  induction s with
  | nil => intro b hb; simp [QueryEscape] at hb
  | cons c rest ih =>
    intro b hb
    unfold QueryEscape at hb
    by_cases h32 : c.val = 32
    · rw [if_pos h32] at hb
      rcases List.mem_cons.mp hb with h | h
      · subst h; decide
      · exact ih b h
    · rw [if_neg h32] at hb
      by_cases hesc : shouldEscape c = true
      · rw [if_pos hesc] at hb
        have hu := upperhex_not_separator c
        rcases List.mem_cons.mp hb with h | h
        · subst h; decide
        · rcases List.mem_cons.mp h with h | h
          · subst h; exact ⟨hu.1, hu.2.1, hu.2.2.1⟩
          · rcases List.mem_cons.mp h with h | h
            · subst h; exact ⟨hu.2.2.2.1, hu.2.2.2.2.1, hu.2.2.2.2.2⟩
            · exact ih b h
      · rw [if_neg hesc] at hb
        rcases List.mem_cons.mp hb with h | h
        · subst h
          rcases escaped_byte_cases b with h2 | h2
          · exact h2
          · exact absurd h2 hesc
        · exact ih b h

theorem cutAt_found (sep : Byte) (a b cur : GoString) (ha : sep ∉ a) :
    cutAt sep cur (a ++ sep :: b) = (cur ++ a, some b) := by
  induction a generalizing cur with
  | nil => simp [cutAt]
  | cons c a ih =>
    have hc : c ≠ sep := fun h => ha (by simp [h])
    have ha2 : sep ∉ a := fun h => ha (by simp [h])
    simp [cutAt, hc, ih _ ha2]

theorem parseQueryLoop_piece (m : Values) (err : Option Error) (piece cur rest : GoString)
    (hp : ∀ b ∈ piece, b.val ≠ 38) :
    parseQueryLoop m err cur (piece ++ rest) = parseQueryLoop m err (cur ++ piece) rest := by
  induction piece generalizing cur with
  | nil => simp
  | cons c piece ih =>
    have hc : c.val ≠ 38 := hp c (by simp)
    have hp2 : ∀ b ∈ piece, b.val ≠ 38 := fun b hb => hp b (by simp [hb])
    rw [List.cons_append, parseQueryLoop, if_neg hc, ih _ hp2]
    simp

theorem formPiece_no_separator (kv : GoString × GoString) :
    (∀ b ∈ formPiece kv, b.val ≠ 38) ∧ (59 : Byte) ∉ formPiece kv ∧ (61 : Byte) ∉ QueryEscape kv.1 := by
  refine ⟨?_, ?_, ?_⟩
  · intro b hb
    unfold formPiece at hb
    rcases List.mem_append.mp hb with h | h
    · exact (QueryEscape_no_separator kv.1 b h).1
    · rcases List.mem_cons.mp h with h | h
      · subst h; decide
      · exact (QueryEscape_no_separator kv.2 b h).1
  · intro hb
    unfold formPiece at hb
    rcases List.mem_append.mp hb with h | h
    · exact (QueryEscape_no_separator kv.1 _ h).2.2 rfl
    · rcases List.mem_cons.mp h with h | h
      · exact absurd h (by decide)
      · exact (QueryEscape_no_separator kv.2 _ h).2.2 rfl
  · intro hb
    exact (QueryEscape_no_separator kv.1 _ hb).2.1 rfl

/-- One escaped `key=value` piece parses to the pair it was made of. -/
theorem parsePair_formPiece (m : Values) (err : Option Error) (kv : GoString × GoString) :
    parsePair m err (formPiece kv) = (Values.Add m kv.1 kv.2, err) := by
  have hsep := formPiece_no_separator kv
  have hne : formPiece kv ≠ [] := by simp [formPiece]
  unfold parsePair
  rw [if_neg hsep.2.1, if_neg hne]
  simp only []
  have hcut : cutAt 61 [] (formPiece kv) = (QueryEscape kv.1, some (QueryEscape kv.2)) := by
    unfold formPiece
    rw [cutAt_found 61 _ _ [] hsep.2.2]
    simp
  rw [hcut]
  simp only [Option.getD_some, QueryUnescape_QueryEscape]

/-- An encoded form parses to the pairs it was made of, in order. -/
theorem parseQueryLoop_pieces (m : Values) (err : Option Error) (pairs : List (GoString × GoString)) :
    parseQueryLoop m err [] (joinAmp (pairs.map formPiece)) =
      (pairs.foldl (fun acc kv => Values.Add acc kv.1 kv.2) m, err) := by
  induction pairs generalizing m with
  | nil =>
    simp [joinAmp, parseQueryLoop, parsePair]
  | cons kv rest ih =>
    cases rest with
    | nil =>
      have h := parseQueryLoop_piece m err (formPiece kv) [] [] (formPiece_no_separator kv).1
      simp only [List.append_nil, List.nil_append] at h
      simp only [List.map_cons, List.map_nil, joinAmp, List.foldl_cons, List.foldl_nil]
      rw [h]
      simp only [parseQueryLoop, parsePair_formPiece]
    | cons kv2 rest2 =>
      have h := parseQueryLoop_piece m err (formPiece kv) []
        ((38 : Byte) :: joinAmp ((kv2 :: rest2).map formPiece)) (formPiece_no_separator kv).1
      simp only [List.nil_append] at h
      simp only [List.map_cons, joinAmp, List.foldl_cons]
      simp only [List.map_cons] at h ih
      rw [h]
      simp only [parseQueryLoop]
      rw [if_pos (by decide), parsePair_formPiece]
      simp only []
      rw [ih]
      simp only [List.foldl_cons]

theorem Encode_authParams (config : Config) (username password : GoString) :
    Values.Encode (authParams config username password) =
      joinAmp ((authPairs config username password).map formPiece) := by
  rfl

theorem ParseQuery_authParams (config : Config) (username password : GoString) :
    ParseQuery (Values.Encode (authParams config username password)) =
      (authForm config username password, none) := by
  rw [Encode_authParams, ParseQuery, parseQueryLoop_pieces]
  rfl

/-- The request `Authenticate` sends, if any, is the one `NewRequest` makes for
POST with the encoded form as its body, with the Content-Type header set. -/
theorem Authenticate_sent_request (lib : Stdlib) (c : Client) (username password : GoString) :
    (c.Authenticate lib username password).sent.length ≤ 1 ∧
      ∀ req ∈ (c.Authenticate lib username password).sent,
        ∃ req0 rawurl,
          NewRequest lib MethodPost rawurl (Values.Encode (authParams c.config username password)) =
            .ok req0 ∧
          req = { req0 with
            Header := Header.Set req0.Header (str "Content-Type")
              (str "application/x-www-form-urlencoded") } := by
  unfold Client.Authenticate
  cases hp : lib.Parse c.config.Server with
  | error e => simp
  | ok url =>
    simp only []
    cases hn : NewRequest lib MethodPost (lib.String { url with Path := lib.Join url.Path (str "/oauth/token") })
        (Values.Encode (authParams c.config username password)) with
    | error e => simp
    | ok req0 =>
      simp only []
      have key : ∀ r : AuthResult,
          r.sent = [{ req0 with
            Header := Header.Set req0.Header (str "Content-Type")
              (str "application/x-www-form-urlencoded") }] →
          r.sent.length ≤ 1 ∧ ∀ req ∈ r.sent, ∃ req0' rawurl,
            NewRequest lib MethodPost rawurl (Values.Encode (authParams c.config username password)) =
              .ok req0' ∧
            req = { req0' with
              Header := Header.Set req0'.Header (str "Content-Type")
                (str "application/x-www-form-urlencoded") } := by
        intro r hr
        rw [hr]
        refine ⟨by simp, ?_⟩
        intro req hreq
        rw [List.mem_singleton.mp hreq]
        exact ⟨req0, _, hn, rfl⟩
      apply key
      split
      · rfl
      · split
        · rfl
        · split <;> rfl

/-- C5: the request Authenticate sends is a POST with Content-Type
application/x-www-form-urlencoded whose body is the encoded form; parsed as a
form, the body holds exactly the six keys client_id, client_secret,
grant_type, password, scope and username, each with the one value
Config.ClientID, Config.ClientSecret, "password", the given password,
"read write follow" and the given username, without a parse error; and a
server reading the form values `username` and `password` of the request gets
the given username and password. -/
theorem Authenticate_request_form (lib : Stdlib) (c : Client) (username password : GoString)
    (req : Request) (hreq : req ∈ (c.Authenticate lib username password).sent) :
    (c.Authenticate lib username password).sent = [req] ∧
      req.Method = MethodPost ∧
      Header.Get req.Header (str "Content-Type") = str "application/x-www-form-urlencoded" ∧
      Header.lookup req.Header (str "Content-Type") = [str "application/x-www-form-urlencoded"] ∧
      req.Body = Values.Encode (authParams c.config username password) ∧
      ParseQuery req.Body = (authForm c.config username password, none) ∧
      req.PostForm = authForm c.config username password ∧
      req.FormValue (str "username") = username ∧
      req.FormValue (str "password") = password := by
  have hcanon : CanonicalMIMEHeaderKey (str "Content-Type") = str "Content-Type" := by decide
  obtain ⟨hlen, hall⟩ := Authenticate_sent_request lib c username password
  obtain ⟨req0, rawurl, hn, hr⟩ := hall req hreq
  obtain ⟨hh, hb, hm⟩ := NewRequest_ok lib MethodPost rawurl _ req0 hn
  have hmethod : req.Method = MethodPost := by
    rw [hr]; simp only []; rw [hm, if_neg (by decide)]
  have hget : Header.Get req.Header (str "Content-Type") = str "application/x-www-form-urlencoded" := by
    rw [hr]; simp only [hh]; exact Header_Get_Set_nil _ _
  have hbody : req.Body = Values.Encode (authParams c.config username password) := by
    rw [hr]; exact hb
  have hpost : req.PostForm = authForm c.config username password := by
    unfold Request.PostForm
    rw [if_pos ⟨Or.inl hmethod, hget⟩, hbody, ParseQuery_authParams]
  have hsent : (c.Authenticate lib username password).sent = [req] := by
    cases hs : (c.Authenticate lib username password).sent with
    | nil => rw [hs] at hreq; cases hreq
    | cons a rest =>
      rw [hs] at hreq hlen
      cases rest with
      | nil => rw [List.mem_singleton.mp hreq]
      | cons b rest2 => simp at hlen
  refine ⟨hsent, hmethod, hget, ?_, hbody, ?_, hpost, ?_, ?_⟩
  · rw [hr]; simp only [hh]
    simp [Header.Set, hcanon, lookup_assign_nil]
  · rw [hbody, ParseQuery_authParams]
  · unfold Request.FormValue
    rw [hpost]
    rfl
  · unfold Request.FormValue
    rw [hpost]
    rfl

/-- C5 at the server of `TestAuthenticate`, for a user name and a password with
bytes that are escaped. -/
theorem Authenticate_request_form_witness :
    ((NewClient authHandler (testConfig [])).Authenticate fixtureLib
        (str "va lid&=é") (str "us+er;%")).sent =
        [testAuthRequest (str "va+lid%26%3D%C3%A9") (str "us%2Ber%3B%25")] ∧
      (testAuthRequest (str "va+lid%26%3D%C3%A9") (str "us%2Ber%3B%25")).FormValue (str "username") =
        str "va lid&=é" ∧
      (testAuthRequest (str "va+lid%26%3D%C3%A9") (str "us%2Ber%3B%25")).FormValue (str "password") =
        str "us+er;%" :=
  ⟨(Authenticate_request_form fixtureLib (NewClient authHandler (testConfig []))
      (str "va lid&=é") (str "us+er;%")
      (testAuthRequest (str "va+lid%26%3D%C3%A9") (str "us%2Ber%3B%25")) (by decide)).1,
    (Authenticate_request_form fixtureLib (NewClient authHandler (testConfig []))
      (str "va lid&=é") (str "us+er;%")
      (testAuthRequest (str "va+lid%26%3D%C3%A9") (str "us%2Ber%3B%25")) (by decide)).2.2.2.2.2.2.2.1,
    (Authenticate_request_form fixtureLib (NewClient authHandler (testConfig []))
      (str "va lid&=é") (str "us+er;%")
      (testAuthRequest (str "va+lid%26%3D%C3%A9") (str "us%2Ber%3B%25")) (by decide)).2.2.2.2.2.2.2.2⟩

/-! ## Lemmas on the Frame Reader -/

theorem scanLines_nl (cur rest : GoString) :
    scanLines cur ((10 : Byte) :: rest) = cur :: scanLines [] rest := by
  simp [scanLines]

theorem scanLines_line (l : GoString) (hl : (10 : Byte) ∉ l) (cur rest : GoString) :
    scanLines cur (l ++ rest) = scanLines (cur ++ l) rest := by
  induction l generalizing cur with
  | nil => simp
  | cons c l ih =>
    have hc : c ≠ (10 : Byte) := fun h => hl (by simp [h])
    have hl2 : (10 : Byte) ∉ l := fun h => hl (by simp [h])
    simp [scanLines, hc, ih hl2]

/-- A line and its newline at the head of the input are one record. -/
theorem scanLines_record (l : GoString) (hl : (10 : Byte) ∉ l) (rest : GoString) :
    scanLines [] (l ++ (10 : Byte) :: rest) = l :: scanLines [] rest := by
  rw [scanLines_line l hl, scanLines_nl]
  simp

/-- Bytes without a newline at the end of the input are one record, unless empty. -/
theorem scanLines_last (l : GoString) (hl : (10 : Byte) ∉ l) (hne : l ≠ []) :
    scanLines [] l = [l] := by
  have h := scanLines_line l hl [] []
  simp only [List.append_nil, List.nil_append] at h
  rw [h]
  simp [scanLines, hne]

/-- The records before a newline do not depend on what follows it. -/
theorem scanLines_split (p rest cur : GoString) :
    scanLines cur (p ++ (10 : Byte) :: rest) = scanLines cur (p ++ [(10 : Byte)]) ++ scanLines [] rest := by
  induction p generalizing cur with
  | nil => simp [scanLines]
  | cons c p ih =>
    by_cases hc : c = (10 : Byte)
    · simp [scanLines, hc, ih]
    · simp [scanLines, hc, ih]

theorem readFrames_append (a : Accumulator) (l1 l2 : List GoString) :
    readFrames a (l1 ++ l2) = readFrames a l1 ++ readFrames (stateAfter a l1) l2 := by
  induction l1 generalizing a with
  | nil => simp [readFrames, stateAfter]
  | cons line l1 ih =>
    simp only [List.cons_append, readFrames, stateAfter]
    cases (readLine a line).2 <;> simp [ih]

theorem stateAfter_append (a : Accumulator) (l1 l2 : List GoString) :
    stateAfter a (l1 ++ l2) = stateAfter (stateAfter a l1) l2 := by
  induction l1 generalizing a with
  | nil => simp [stateAfter]
  | cons line l1 ih => simp [stateAfter, ih]

theorem readLine_clean (a : Accumulator) (line : GoString) (ha : a.clean) :
    (readLine a line).1.clean := by
  unfold readLine
  split
  · intro h; simp at h
  · split
    · intro h; simp at h
    · split
      · intro _; rfl
      · exact ha

theorem stateAfter_clean (a : Accumulator) (ls : List GoString) (ha : a.clean) :
    (stateAfter a ls).clean := by
  induction ls generalizing a with
  | nil => exact ha
  | cons line ls ih => exact ih _ (readLine_clean a line ha)

theorem reset_clean : Accumulator.reset.clean := fun _ => rfl

/-- After a blank line the accumulator is reset. -/
theorem readLine_blank (a : Accumulator) (ha : a.clean) :
    (readLine a []).1 = Accumulator.reset := by
  have h1 : dropStart (str "event: ") [] = none := by decide
  have h2 : dropStart (str "data: ") [] = none := by decide
  unfold readLine
  rw [h1, h2]
  simp only []
  by_cases hs : a.seen = true
  · simp [hs]
  · simp only [hs, and_false, ↓reduceIte]
    exact ha (by simpa using hs)

/-- A record that is not blank emits no frame. -/
theorem readLine_nonblank (a : Accumulator) (line : GoString) (hne : line ≠ []) :
    (readLine a line).2 = none := by
  unfold readLine
  split
  · rfl
  · split
    · rfl
    · simp [hne]

theorem readFrames_nonblank (a : Accumulator) (ls : List GoString) (h : ∀ l ∈ ls, l ≠ []) :
    readFrames a ls = [] := by
  induction ls generalizing a with
  | nil => rfl
  | cons line ls ih =>
    have h1 : line ≠ [] := h line (by simp)
    have h2 : ∀ l ∈ ls, l ≠ [] := fun l hl => h l (by simp [hl])
    simp [readFrames, readLine_nonblank a line h1, ih _ h2]

theorem dropStart_append (p s : GoString) : dropStart p (p ++ s) = some s := by
  induction p with
  | nil => cases s <;> rfl
  | cons c p ih => simp [dropStart, ih]

theorem readLine_event (a : Accumulator) (label : GoString) :
    readLine a (str "event: " ++ label) = ({ a with label := label, seen := true }, none) := by
  unfold readLine
  rw [dropStart_append]

theorem dropStart_event_data (text : GoString) :
    dropStart (str "event: ") (str "data: " ++ text) = none := by
  have h1 : str "event: " = [101, 118, 101, 110, 116, 58, 32] := by decide
  have h2 : str "data: " = [100, 97, 116, 97, 58, 32] := by decide
  rw [h1, h2]
  simp [dropStart]

theorem readLine_data (a : Accumulator) (text : GoString) :
    readLine a (str "data: " ++ text) =
      ({ a with payload := a.payload ++ text, seen := true }, none) := by
  unfold readLine
  rw [dropStart_event_data, dropStart_append]

theorem str_no_nl_event : (10 : Byte) ∉ str "event: " := by decide

theorem str_no_nl_data : (10 : Byte) ∉ str "data: " := by decide

/-- The records of a body that starts with a complete block. -/
theorem scanLines_block (label text rest : GoString)
    (hl : (10 : Byte) ∉ label) (ht : (10 : Byte) ∉ text) :
    scanLines [] (block label text ++ rest) =
      (str "event: " ++ label) :: (str "data: " ++ text) :: [] :: scanLines [] rest := by
  have e1 : (10 : Byte) ∉ str "event: " ++ label := by
    simp only [List.mem_append, not_or]; exact ⟨str_no_nl_event, hl⟩
  have e2 : (10 : Byte) ∉ str "data: " ++ text := by
    simp only [List.mem_append, not_or]; exact ⟨str_no_nl_data, ht⟩
  have hb : block label text ++ rest =
      (str "event: " ++ label) ++ (10 : Byte) ::
        ((str "data: " ++ text) ++ (10 : Byte) :: ([] ++ (10 : Byte) :: rest)) := by
    simp [block]
  rw [hb, scanLines_record _ e1, scanLines_record _ e2, scanLines_record [] (by simp)]

/-- A complete block read from a reset accumulator is one frame and leaves the
accumulator reset. -/
theorem readFrames_block (label text : GoString) (ls : List GoString) :
    readFrames Accumulator.reset ((str "event: " ++ label) :: (str "data: " ++ text) :: [] :: ls) =
      { label := label, payload := text } :: readFrames Accumulator.reset ls := by
  have h1 : dropStart (str "event: ") [] = none := by decide
  have h2 : dropStart (str "data: ") [] = none := by decide
  simp only [readFrames, readLine_event, readLine_data]
  simp [readLine, h1, h2, Accumulator.reset]

theorem FrameReader_block (label text rest : GoString)
    (hl : (10 : Byte) ∉ label) (ht : (10 : Byte) ∉ text) :
    FrameReader (block label text ++ rest) = { label := label, payload := text } :: FrameReader rest := by
  unfold FrameReader
  rw [scanLines_block label text rest hl ht, readFrames_block]

theorem FrameReader_blocks (bs : List (GoString × GoString))
    (hwf : ∀ b ∈ bs, (10 : Byte) ∉ b.1 ∧ (10 : Byte) ∉ b.2) :
    FrameReader (blocks bs) = bs.map (fun b => { label := b.1, payload := b.2 }) := by
  induction bs with
  | nil => rfl
  | cons b bs ih =>
    obtain ⟨l, t⟩ := b
    have hb := hwf (l, t) (by simp)
    have hrest : ∀ b ∈ bs, (10 : Byte) ∉ b.1 ∧ (10 : Byte) ∉ b.2 := fun b h => hwf b (by simp [h])
    simp only [blocks, List.map_cons]
    rw [FrameReader_block l t _ hb.1 hb.2, ih hrest]

theorem readFrames_blank_cons (a : Accumulator) (ha : a.clean) (ls : List GoString) :
    readFrames a ([] :: ls) = readFrames a [[]] ++ readFrames Accumulator.reset ls := by
  simp only [readFrames, readLine_blank a ha]
  cases (readLine a []).2 <;> simp

/-- At a frame start the Frame Reader starts afresh: the frames of the body are
those before the place followed by those after it. -/
theorem FrameReader_frameStart (pre rest : GoString) (hpre : frameStart pre) :
    FrameReader (pre ++ rest) = FrameReader pre ++ FrameReader rest := by
  rcases hpre with h | ⟨p, h⟩
  · subst h; simp [FrameReader, scanLines, readFrames]
  · subst h
    unfold FrameReader
    have e1 : p ++ [(10 : Byte), (10 : Byte)] ++ rest = p ++ (10 : Byte) :: ((10 : Byte) :: rest) := by simp
    have e2 : p ++ [(10 : Byte), (10 : Byte)] = p ++ (10 : Byte) :: [(10 : Byte)] := by simp
    have hc : (stateAfter Accumulator.reset (scanLines [] (p ++ [(10 : Byte)]))).clean :=
      stateAfter_clean _ _ reset_clean
    rw [e1, e2, scanLines_split p ((10 : Byte) :: rest), scanLines_split p [(10 : Byte)],
      scanLines_nl, scanLines_nl, readFrames_append, readFrames_append,
      readFrames_blank_cons _ hc (scanLines [] rest), readFrames_blank_cons _ hc (scanLines [] [])]
    simp [scanLines, readFrames]

theorem handleStream_frameStart (pre rest : GoString) (hpre : frameStart pre) :
    handleStream (pre ++ rest) = handleStream pre ++ handleStream rest := by
  simp [handleStream, FrameReader_frameStart pre rest hpre]

theorem publish_unknown (label text : GoString) (h : unknownLabel label) :
    publish { label := label, payload := text } = Event.Error errUnknownEvent := by
  obtain ⟨h1, h2, h3⟩ := h
  simp [publish, decodeEvent, h1, h2, h3]

theorem scanLines_records (ls : List GoString) (h : ∀ l ∈ ls, (10 : Byte) ∉ l) (rest : GoString) :
    scanLines [] (records ls ++ rest) = ls ++ scanLines [] rest := by
  induction ls with
  | nil => rfl
  | cons l ls ih =>
    have h1 : (10 : Byte) ∉ l := h l (by simp)
    have h2 : ∀ l ∈ ls, (10 : Byte) ∉ l := fun l hl => h l (by simp [hl])
    have e : records (l :: ls) ++ rest = l ++ (10 : Byte) :: (records ls ++ rest) := by
      simp [records]
    rw [e, scanLines_record l h1, ih h2]
    rfl

/-- Records that are not blank, after a body that ends with a newline, add no
frame. -/
theorem FrameReader_nonblank_tail (pre tail : GoString) (ls : List GoString)
    (hpre : pre = [] ∨ ∃ p, pre = p ++ [(10 : Byte)])
    (htail : scanLines [] tail = ls) (hls : ∀ l ∈ ls, l ≠ []) :
    FrameReader (pre ++ tail) = FrameReader pre := by
  rcases hpre with h | ⟨p, h⟩
  · subst h
    simp only [List.nil_append, FrameReader, htail, readFrames_nonblank _ ls hls]
    rfl
  · subst h
    unfold FrameReader
    have e1 : p ++ [(10 : Byte)] ++ tail = p ++ (10 : Byte) :: tail := by simp
    rw [e1, scanLines_split p tail, readFrames_append, htail, readFrames_nonblank _ ls hls]
    simp

theorem data_line_ne_nil (text : GoString) : str "data: " ++ text ≠ [] := by
  have h : str "data: " = [100, 97, 116, 97, 58, 32] := by decide
  rw [h]; simp

theorem data_line_no_nl (text : GoString) (ht : (10 : Byte) ∉ text) :
    (10 : Byte) ∉ str "data: " ++ text := by
  simp only [List.mem_append, not_or]; exact ⟨str_no_nl_data, ht⟩

/-! ## The event stream: complete blocks, unknown labels, unterminated frames -/

/-- C6: when the streaming endpoint answers 200 with a body made of N complete
`event:`/`data:` blocks, each followed by a blank line (labels and payloads
are single lines), StreamingPublic opens the stream and the session publishes
exactly N events, the i-th being what the Event Decoder makes of the i-th
block; for the two update blocks with contents "foo" and "bar" these are the
two Update events with Content "foo" then "bar". -/
theorem StreamingPublic_complete_blocks (lib : Stdlib) (c : Client) (resp : Response)
    (bs : List (GoString × GoString))
    (hsend : c.Send lib MethodGet (str "/api/v1/streaming/public") [] = .ok resp)
    (hstatus : resp.StatusCode = StatusOK)
    (hbody : resp.Body = blocks bs)
    (hwf : ∀ b ∈ bs, (10 : Byte) ∉ b.1 ∧ (10 : Byte) ∉ b.2) :
    ∃ events, c.StreamingPublic lib = .ok events ∧
      events.length = bs.length ∧
      events = bs.map (fun b => publish { label := b.1, payload := b.2 }) ∧
      (bs = fooBar →
        events = [Event.Update { Content := str "foo" }, Event.Update { Content := str "bar" }]) := by
  have hev : handleStream resp.Body = bs.map (fun b => publish { label := b.1, payload := b.2 }) := by
    rw [hbody, handleStream, FrameReader_blocks bs hwf, List.map_map]
    rfl
  refine ⟨handleStream resp.Body, ?_, ?_, hev, ?_⟩
  · unfold Client.StreamingPublic
    rw [hsend]
    simp [hstatus]
  · rw [hev]; simp
  · intro hfb
    rw [hev, hfb]
    decide

/-- C6 at the test client: the endpoint answers the two update blocks of the
end-to-end scenario. -/
theorem StreamingPublic_complete_blocks_witness :
    ∃ events,
      (NewClient { Do := fun _ => .ok { StatusCode := 200, Status := str "200 OK", Body := blocks fooBar } }
        (testConfig (str "zoo"))).StreamingPublic fixtureLib = .ok events ∧
      events.length = fooBar.length ∧
      events = fooBar.map (fun b => publish { label := b.1, payload := b.2 }) ∧
      (fooBar = fooBar →
        events = [Event.Update { Content := str "foo" }, Event.Update { Content := str "bar" }]) :=
  StreamingPublic_complete_blocks fixtureLib
    (NewClient { Do := fun _ => .ok { StatusCode := 200, Status := str "200 OK", Body := blocks fooBar } }
      (testConfig (str "zoo")))
    { StatusCode := 200, Status := str "200 OK", Body := blocks fooBar } fooBar
    (by decide) (by decide) rfl (by decide)

/-- C7: in every stream body, a complete frame (text that ends with a blank line
and that the Frame Reader reads as one frame) at a frame start whose label is
not update, notification or delete is published as exactly one Error event
carrying the decode error "unknown event type"; the events before it are
those of the body before it, and the session goes on: what follows the frame
is decoded into the same events as on its own. -/
theorem unknown_label_one_error (pre frame post : GoString) (f : Frame)
    (hpre : frameStart pre)
    (hend : ∃ p, frame = p ++ [(10 : Byte), (10 : Byte)])
    (hframe : FrameReader frame = [f])
    (hunknown : unknownLabel f.label) :
    handleStream (pre ++ frame ++ post) =
      handleStream pre ++ Event.Error errUnknownEvent :: handleStream post := by
  rw [List.append_assoc, handleStream_frameStart pre _ hpre,
    handleStream_frameStart frame post (Or.inr hend)]
  congr 1
  simp only [handleStream, hframe, List.map_cons, List.map_nil, List.singleton_append]
  rw [publish_unknown f.label f.payload hunknown]

/-- C7 on a heartbeat frame between an update and a delete frame. -/
theorem unknown_label_one_error_witness :
    handleStream (block (str "update") (str "\x7b\"content\":\"foo\"\x7d") ++
        block (str "heartbeat") (str "thump") ++ block (str "delete") (str "42")) =
      handleStream (block (str "update") (str "\x7b\"content\":\"foo\"\x7d")) ++
        Event.Error errUnknownEvent :: handleStream (block (str "delete") (str "42")) ∧
    handleStream (block (str "update") (str "\x7b\"content\":\"foo\"\x7d")) =
      [Event.Update { Content := str "foo" }] ∧
    handleStream (block (str "delete") (str "42")) = [Event.Delete 42] :=
  ⟨unknown_label_one_error (block (str "update") (str "\x7b\"content\":\"foo\"\x7d"))
      (block (str "heartbeat") (str "thump")) (block (str "delete") (str "42"))
      { label := str "heartbeat", payload := str "thump" }
      (Or.inr ⟨str "event: update\ndata: \x7b\"content\":\"foo\"\x7d", by decide⟩)
      ⟨str "event: heartbeat\ndata: thump", by decide⟩
      (by decide) ⟨by decide, by decide, by decide⟩,
    by decide, by decide⟩

/-- C8: a stream body that ends right after a `data:` line, with or without that
line's newline and with no blank line after it, publishes no event for the
unterminated trailing frame: the events are exactly those of the body before
the trailing frame's lines (none of which is blank). -/
theorem unterminated_trailing_frame (pre text : GoString) (ls : List GoString)
    (hpre : pre = [] ∨ ∃ p, pre = p ++ [(10 : Byte)])
    (hls : ∀ l ∈ ls, l ≠ [] ∧ (10 : Byte) ∉ l)
    (ht : (10 : Byte) ∉ text) :
    handleStream (pre ++ (records ls ++ (str "data: " ++ text))) = handleStream pre ∧
      handleStream (pre ++ (records ls ++ (str "data: " ++ text ++ [(10 : Byte)]))) =
        handleStream pre := by
  have hnl : ∀ l ∈ ls, (10 : Byte) ∉ l := fun l h => (hls l h).2
  have hall : ∀ l ∈ ls ++ [str "data: " ++ text], l ≠ [] := by
    intro l h
    rcases List.mem_append.mp h with h | h
    · exact (hls l h).1
    · rw [List.mem_singleton.mp h]; exact data_line_ne_nil text
  constructor
  · have h1 : scanLines [] (records ls ++ (str "data: " ++ text)) = ls ++ [str "data: " ++ text] := by
      rw [scanLines_records ls hnl, scanLines_last _ (data_line_no_nl text ht) (data_line_ne_nil text)]
    simp only [handleStream, FrameReader_nonblank_tail pre _ _ hpre h1 hall]
  · have h1 : scanLines [] (records ls ++ (str "data: " ++ text ++ [(10 : Byte)])) =
        ls ++ [str "data: " ++ text] := by
      have e : str "data: " ++ text ++ [(10 : Byte)] = (str "data: " ++ text) ++ (10 : Byte) :: [] := by
        simp
      rw [scanLines_records ls hnl, e, scanLines_record _ (data_line_no_nl text ht)]
      rfl
    simp only [handleStream, FrameReader_nonblank_tail pre _ _ hpre h1 hall]

/-- C8 on a body with one complete update block followed by an unterminated one. -/
theorem unterminated_trailing_frame_witness :
    (handleStream (block (str "update") (str "\x7b\"Content\":\"foo\"\x7d") ++
        (records [str "event: update"] ++ (str "data: " ++ str "\x7b\"Content\":\"bar\"\x7d"))) =
      handleStream (block (str "update") (str "\x7b\"Content\":\"foo\"\x7d")) ∧
    handleStream (block (str "update") (str "\x7b\"Content\":\"foo\"\x7d") ++
        (records [str "event: update"] ++
          (str "data: " ++ str "\x7b\"Content\":\"bar\"\x7d" ++ [(10 : Byte)]))) =
      handleStream (block (str "update") (str "\x7b\"Content\":\"foo\"\x7d"))) ∧
    handleStream (block (str "update") (str "\x7b\"Content\":\"foo\"\x7d")) =
      [Event.Update { Content := str "foo" }] :=
  ⟨unterminated_trailing_frame (block (str "update") (str "\x7b\"Content\":\"foo\"\x7d"))
      (str "\x7b\"Content\":\"bar\"\x7d") [str "event: update"]
      (Or.inr ⟨str "event: update\ndata: \x7b\"Content\":\"foo\"\x7d\n", by decide⟩)
      (by decide) (by decide),
    by decide⟩

/-- The body `TestStreamingPublic` serves ends its second block with a line of
two tabs and the end of the stream, not with a blank line: the Frame Reader of
the specification publishes the first event only. -/
theorem TestStreamingPublic_body :
    (NewClient streamingHandler (testConfig (str "zoo"))).StreamingPublic fixtureLib =
      .ok [Event.Update { Content := str "foo" }] := by
  decide

end Mastodon
